import Mathlib

/-!
Verification development for the RDS schema-reconciliation Lambda
(`src/infra/rds_schema_lambda/handler.py`).

The embedding models the database visible to one `ensure_schema` invocation:
a set of named tables (column descriptors plus rows), a set of indexes, and
the pgvector-extension flag.  A session carries the current (uncommitted)
database, the database as of the last commit (the snapshot that `ROLLBACK`
or closing the connection without commit restores — PostgreSQL DDL is
transactional, which the source itself relies on when it recreates lost DDL
after `conn.rollback()`), and the ordered trace of SQL statements attempted.

Statement failures are injected by an oracle `Env.fails : Stmt → Option String`
giving the psycopg2 error message, mirroring that any `cursor.execute` may
raise.  A failed statement has no effect on the database.  Transaction
control (`BEGIN`/`COMMIT`/`ROLLBACK`, `conn.commit`, `conn.rollback`) is
modelled as infallible; its trace markers are recorded.
-/

namespace RdsSchema

/-- A `(column_name, data_type, udt_name)` row of
`information_schema.columns`, as fetched by `ensure_schema`. -/
structure ColumnDescriptor where
  name : String
  data_type : String
  udt_name : String
deriving DecidableEq, Repr

/-- One table row; each field is the value stored under the corresponding
column, `none` when the column is absent or NULL. -/
structure Row where
  text : Option String
  metadata : Option String
  embedding : Option String
deriving DecidableEq, Repr

/-- A table: its catalog columns and its rows. -/
structure Table where
  columns : List ColumnDescriptor
  rows : List Row
deriving DecidableEq, Repr

/-- The three index shapes the handler creates or pattern-matches in
`pg_indexes`: `gin (to_tsvector(...))`, `hnsw (... vector_cosine_ops)`,
`ivfflat (... vector_cosine_ops)`. -/
inductive IndexKind where
  | ginText
  | hnsw
  | ivfflat
deriving DecidableEq, Repr

/-- An index in the catalog. -/
structure IndexDef where
  name : String
  table : String
  kind : IndexKind
deriving DecidableEq, Repr

/-- Database state visible to the session. -/
structure DB where
  tables : List (String × Table)
  indexes : List IndexDef
  vectorExtension : Bool
deriving DecidableEq, Repr

/-- The SQL statements `ensure_schema` / `_migrate_table_schema` execute.
`createTable` records which name the vector column is declared under
(`embedding`, or `embeddings` in the deep-fallback branch) and the
dimensionality. -/
inductive Stmt where
  | createExtensionVector
  | selectColumns (table : String)
  | selectTextIndex (table : String)
  | selectVectorIndex (table : String)
  | selectCount (table : String)
  | createTable (table : String) (embName : String) (dims : Nat)
  | createTableAsSelect (dst : String) (src : String)
  | dropTable (table : String)
  | createGinIndex (table : String)
  | createHnswIndex (table : String)
  | createIvfflatIndex (table : String)
  | insertTextMetadata (dst : String) (src : String)
  | insertTextOnly (dst : String) (src : String)
  | beginTxn
  | commitTxn
  | rollbackTxn
deriving DecidableEq, Repr

/-- Table lookup by name (`information_schema` view of the session). -/
def lookupTable (db : DB) (t : String) : Option Table :=
  (db.tables.find? (fun p => p.1 == t)).map (fun p => p.2)

/-- Install a table under a name, replacing any previous one. -/
def setTable (db : DB) (t : String) (tb : Table) : DB :=
  { db with tables := db.tables.filter (fun p => p.1 != t) ++ [(t, tb)] }

/-- Columns of a table; `[]` when the table is absent, matching the empty
`fetchall` result the handler branches on. -/
def tableColumns (db : DB) (t : String) : List ColumnDescriptor :=
  match lookupTable db t with
  | some tb => tb.columns
  | none => []

/-- Rows of a table (`[]` when absent). -/
def tableRows (db : DB) (t : String) : List Row :=
  match lookupTable db t with
  | some tb => tb.rows
  | none => []

/-- Whether an index of the given name exists (`CREATE INDEX IF NOT EXISTS`). -/
def hasIndexName (db : DB) (n : String) : Bool :=
  db.indexes.any (fun i => i.name == n)

/-- Add an index unless one of the same name exists. -/
def addIndexIfAbsent (db : DB) (i : IndexDef) : DB :=
  if hasIndexName db i.name then db else { db with indexes := db.indexes ++ [i] }

/-- The `pg_indexes ... LIKE '%gin%to_tsvector%'` probe. -/
def hasTextIndex (db : DB) (t : String) : Bool :=
  db.indexes.any (fun i => i.table == t && i.kind == IndexKind.ginText)

/-- The `pg_indexes ... LIKE '%hnsw%vector_cosine_ops%' OR '%ivfflat%...'` probe. -/
def hasVectorIndex (db : DB) (t : String) : Bool :=
  db.indexes.any (fun i => i.table == t && (i.kind == IndexKind.hnsw || i.kind == IndexKind.ivfflat))

/-- Whether a specific-kind index exists on a table. -/
def hasIndexKind (db : DB) (t : String) (k : IndexKind) : Bool :=
  db.indexes.any (fun i => i.table == t && i.kind == k)

/-- Columns of the table created by the handler's
`CREATE TABLE (id UUID PRIMARY KEY ..., text TEXT, <emb> vector(N), metadata JSONB)`. -/
def newSchemaColumns (embName : String) : List ColumnDescriptor :=
  [⟨"id", "uuid", "uuid"⟩,
   ⟨"text", "text", "text"⟩,
   ⟨embName, "USER-DEFINED", "vector"⟩,
   ⟨"metadata", "jsonb", "jsonb"⟩]

/-- Effect of a successfully executed statement on the database.  `DROP TABLE`
also drops the table's indexes; `CREATE TABLE ... AS SELECT` copies columns
and rows but no indexes; the `INSERT ... SELECT` statements copy only the
named columns, leaving the vector column NULL. -/
def stmtEffect (st : Stmt) (db : DB) : DB :=
  match st with
  | .createExtensionVector => { db with vectorExtension := true }
  | .selectColumns _ => db
  | .selectTextIndex _ => db
  | .selectVectorIndex _ => db
  | .selectCount _ => db
  | .createTable t emb _ => setTable db t ⟨newSchemaColumns emb, []⟩
  | .createTableAsSelect dst src =>
      match lookupTable db src with
      | some tb => setTable db dst tb
      | none => db
  | .dropTable t =>
      { db with tables := db.tables.filter (fun p => p.1 != t),
                indexes := db.indexes.filter (fun i => i.table != t) }
  | .createGinIndex t => addIndexIfAbsent db ⟨t ++ "_text_gin_idx", t, IndexKind.ginText⟩
  | .createHnswIndex t => addIndexIfAbsent db ⟨t ++ "_embedding_hnsw_idx", t, IndexKind.hnsw⟩
  | .createIvfflatIndex t => addIndexIfAbsent db ⟨t ++ "_embedding_ivfflat_idx", t, IndexKind.ivfflat⟩
  | .insertTextMetadata dst src =>
      match lookupTable db src, lookupTable db dst with
      | some s, some d =>
          setTable db dst { d with rows := d.rows ++ s.rows.map (fun r => ⟨r.text, r.metadata, none⟩) }
      | _, _ => db
  | .insertTextOnly dst src =>
      match lookupTable db src, lookupTable db dst with
      | some s, some d =>
          setTable db dst { d with rows := d.rows ++ s.rows.map (fun r => ⟨r.text, none, none⟩) }
      | _, _ => db
  | .beginTxn => db
  | .commitTxn => db
  | .rollbackTxn => db

/-- Ambient configuration and failure oracle of one invocation:
`AUTO_MIGRATE_SCHEMA`, `EMBEDDING_DIMENSIONS`, the `time.time()` value used
for the backup suffix, and for each statement whether the server rejects it
(with which error message). -/
structure Env where
  autoMigrate : Bool
  dims : Nat
  now : Nat
  fails : Stmt → Option String

/-- A live session: current database, last committed snapshot, statement trace. -/
structure Sess where
  db : DB
  committed : DB
  trace : List Stmt
deriving DecidableEq, Repr

/-- Execute one statement: it is recorded in the trace; on oracle failure the
database is untouched and the error message is raised. -/
def tryExec (env : Env) (s : Sess) (st : Stmt) : Except (String × Sess) Sess :=
  let s1 : Sess := { s with trace := s.trace ++ [st] }
  match env.fails st with
  | some e => .error (e, s1)
  | none => .ok { s1 with db := stmtEffect st s1.db }

/-- `conn.commit()` / `cursor.execute("COMMIT;")`: snapshot the current state. -/
def doCommit (s : Sess) : Sess :=
  { db := s.db, committed := s.db, trace := s.trace ++ [Stmt.commitTxn] }

/-- `conn.rollback()` / `cursor.execute("ROLLBACK;")`: restore the snapshot. -/
def doRollback (s : Sess) : Sess :=
  { db := s.committed, committed := s.committed, trace := s.trace ++ [Stmt.rollbackTxn] }

/-- `cursor.execute("BEGIN;")`: a no-op on state (psycopg2 already holds an
open transaction), recorded in the trace. -/
def doBeginTxn (s : Sess) : Sess :=
  { s with trace := s.trace ++ [Stmt.beginTxn] }

/-- Whether the first character list starts the second. -/
def charsStartWith : List Char → List Char → Bool
  | [], _ => true
  | _ :: _, [] => false
  | p :: ps, c :: cs => p == c && charsStartWith ps cs

/-- Whether the first character list occurs contiguously in the second. -/
def charsContain (pat : List Char) : List Char → Bool
  | [] => charsStartWith pat []
  | c :: cs => charsStartWith pat (c :: cs) || charsContain pat cs

/-- Substring test used for `"access method" in str(e)`-style checks. -/
def strContains (s pat : String) : Bool :=
  charsContain pat.data s.data

/-- The handler's capability-error detector:
`"access method" in str(hnsw_error) and "hnsw" in str(hnsw_error)`. -/
def isCapabilityError (e : String) : Bool :=
  strContains e "access method" && strContains e "hnsw"

/-- Python-dict view of the fetched columns: `name ↦ (data_type, udt_name)`,
later duplicates winning as in the dict comprehension. -/
def colLookup (cols : List ColumnDescriptor) (n : String) : Option (String × String) :=
  (cols.reverse.find? (fun c => c.name == n)).map (fun c => (c.data_type, c.udt_name))

/-- The `needs_migration` flag of `ensure_schema` (lines 211–237): ID column
must have udt `uuid`, embedding column udt `vector`, metadata column present. -/
def needs_migration (cols : List ColumnDescriptor) : Bool :=
  (match colLookup cols "id" with
   | some (_, udt) => udt != "uuid"
   | none => true)
  || (match colLookup cols "embedding" with
      | some (_, udt) => udt != "vector"
      | none => true)
  || (colLookup cols "metadata").isNone

/-- The `needs_index_update` flag (lines 240–266). -/
def needs_index_update (textIdx vecIdx : Bool) : Bool :=
  !textIdx || !vecIdx

/-- The four-way decision of the spec's Divergence Classifier. -/
inductive ReconciliationDecision where
  | NoTable
  | IndexRepairOnly
  | SchemaMismatch
  | SchemaOk
deriving DecidableEq, Repr

/-- The decision `ensure_schema` computes from the fetched columns and the two
index probes: empty column set → create; `needs_migration` → migrate path;
`needs_index_update` → repair path; otherwise fall through to the final
commit. -/
def classify (cols : List ColumnDescriptor) (textIdx vecIdx : Bool) : ReconciliationDecision :=
  if cols.isEmpty then ReconciliationDecision.NoTable
  else if needs_migration cols then ReconciliationDecision.SchemaMismatch
  else if needs_index_update textIdx vecIdx then ReconciliationDecision.IndexRepairOnly
  else ReconciliationDecision.SchemaOk

/-- The decision `ensure_schema` reaches on a database state. -/
def classifyDb (db : DB) (t : String) : ReconciliationDecision :=
  classify (tableColumns db t) (hasTextIndex db t) (hasVectorIndex db t)

/-- The exception classes of the handler that reach `lambda_handler`. -/
inductive AppError where
  | configurationError (msg : String)
  | secretManagerError (msg : String)
  | databaseError (msg : String)
  | unexpectedError (msg : String)
deriving DecidableEq, Repr

/-- `str(e)` of a handler exception: its message. -/
def appErrorMsg : AppError → String
  | .configurationError m => m
  | .secretManagerError m => m
  | .databaseError m => m
  | .unexpectedError m => m

/-- An error inside `ensure_schema`: either a propagating `psycopg2.Error`
(carrying its message) or an already-wrapped handler exception (the
`DatabaseError` that `_migrate_table_schema` raises). -/
inductive CoreErr where
  | pg (msg : String)
  | app (e : AppError)
deriving DecidableEq, Repr

/-- Message of a core error, as `str(e)` would render it. -/
def coreErrMsg : CoreErr → String
  | .pg m => m
  | .app e => appErrorMsg e

/-- The session an `Except` result left behind, whichever way it ended. -/
def sessOf (r : Except (String × Sess) Sess) : Sess :=
  match r with
  | .ok s => s
  | .error (_, s) => s

/-- The repair path's similarity-index provisioning (handler lines 298–326):
try HNSW; on failure `conn.rollback()` first, then if the message names the
missing access method try IVFFlat once (rolling back again and continuing
without a vector index if that also fails); any other failure re-raises. -/
def repairVectorIndex (env : Env) (tbl : String) (s : Sess) : Except (String × Sess) Sess :=
  match tryExec env s (Stmt.createHnswIndex tbl) with
  | .ok s1 => .ok s1
  | .error (e, s1) =>
    let s2 := doRollback s1
    if isCapabilityError e then
      match tryExec env s2 (Stmt.createIvfflatIndex tbl) with
      | .ok s3 => .ok s3
      | .error (_, s3) => .ok (doRollback s3)
    else .error (e, s2)

/-- The migration path's similarity-index provisioning (handler lines
493–516): same try/fallback but with no explicit rollback (the enclosing
migration transaction is already open), and an IVFFlat failure is only
logged. -/
def migrateVectorIndex (env : Env) (tbl : String) (s : Sess) : Except (String × Sess) Sess :=
  match tryExec env s (Stmt.createHnswIndex tbl) with
  | .ok s1 => .ok s1
  | .error (e, s1) =>
    if isCapabilityError e then
      match tryExec env s1 (Stmt.createIvfflatIndex tbl) with
      | .ok s2 => .ok s2
      | .error (_, s2) => .ok s2
    else .error (e, s1)

/-- Name of the backup table: `f"{table_name}_backup_{int(time.time())}"`. -/
def backupName (env : Env) (tbl : String) : String :=
  tbl ++ "_backup_" ++ toString env.now

/-- Steps 3–6 of `_migrate_table_schema` after the optional backup copy:
drop, recreate, text index, fallback-aware vector index, best-effort
repopulation (text+metadata, or text only, or skipped entirely when the
backup lacks a text column; a repopulation failure is only logged), then
`COMMIT;`. -/
def migrate_rest (env : Env) (tbl : String) (dims : Nat)
    (existing : List ColumnDescriptor) (rowCount : Nat) (backup : String) (s : Sess) :
    Except (String × Sess) Sess :=
  match tryExec env s (Stmt.dropTable tbl) with
  | .error p => .error p
  | .ok s3 =>
  match tryExec env s3 (Stmt.createTable tbl "embedding" dims) with
  | .error p => .error p
  | .ok s4 =>
  match tryExec env s4 (Stmt.createGinIndex tbl) with
  | .error p => .error p
  | .ok s5 =>
  match migrateVectorIndex env tbl s5 with
  | .error p => .error p
  | .ok s6 =>
  let s7 :=
    if rowCount > 0 then
      if (colLookup existing "text").isSome then
        if (colLookup existing "metadata").isSome then
          sessOf (tryExec env s6 (Stmt.insertTextMetadata tbl backup))
        else
          sessOf (tryExec env s6 (Stmt.insertTextOnly tbl backup))
      else s6
    else s6
  .ok (doCommit s7)

/-- Body of `_migrate_table_schema` (handler lines 450–547): BEGIN, count
rows, back the table up when non-empty, then the structural and
repopulation steps of `migrate_rest`. -/
def migrate_body (env : Env) (tbl : String) (dims : Nat)
    (existing : List ColumnDescriptor) (s : Sess) : Except (String × Sess) Sess :=
  let s0 := doBeginTxn s
  match tryExec env s0 (Stmt.selectCount tbl) with
  | .error p => .error p
  | .ok s1 =>
  let rowCount := (tableRows s1.db tbl).length
  match (if rowCount > 0
         then tryExec env s1 (Stmt.createTableAsSelect (backupName env tbl) tbl)
         else .ok s1) with
  | .error p => .error p
  | .ok s2 => migrate_rest env tbl dims existing rowCount (backupName env tbl) s2

/-- `_migrate_table_schema` (handler lines 435–552): run the body; any
uncaught failure executes `ROLLBACK;` and raises
`DatabaseError(f"Schema migration failed: {...}")`. -/
def migrate_table_schema (env : Env) (tbl : String) (dims : Nat)
    (existing : List ColumnDescriptor) (s : Sess) : Except (CoreErr × Sess) Sess :=
  match migrate_body env tbl dims existing s with
  | .ok s1 => .ok s1
  | .error (e, s1) =>
      .error (CoreErr.app (AppError.databaseError ("Schema migration failed: " ++ e)), doRollback s1)

/-- The fresh-creation path (handler lines 331–419): create table, text
index, try HNSW; on failure `conn.rollback()` (losing the table), and if it
was the capability error recreate table and text index and try IVFFlat; if
that inner block fails, roll back again and create the deep-fallback table —
whose vector column is declared `embeddings` — plus the text index; a
failure there propagates. -/
def fresh_create (env : Env) (tbl : String) (s : Sess) : Except (String × Sess) Sess :=
  match tryExec env s (Stmt.createTable tbl "embedding" env.dims) with
  | .error p => .error p
  | .ok s1 =>
  match tryExec env s1 (Stmt.createGinIndex tbl) with
  | .error p => .error p
  | .ok s2 =>
  match tryExec env s2 (Stmt.createHnswIndex tbl) with
  | .ok s3 => .ok s3
  | .error (e, s3) =>
    let s4 := doRollback s3
    if isCapabilityError e then
      let inner : Except (String × Sess) Sess :=
        match tryExec env s4 (Stmt.createTable tbl "embedding" env.dims) with
        | .error p => .error p
        | .ok s5 =>
          match tryExec env s5 (Stmt.createGinIndex tbl) with
          | .error p => .error p
          | .ok s6 => tryExec env s6 (Stmt.createIvfflatIndex tbl)
      match inner with
      | .ok s7 => .ok s7
      | .error (_, s7) =>
        let s8 := doRollback s7
        match tryExec env s8 (Stmt.createTable tbl "embeddings" env.dims) with
        | .error p => .error p
        | .ok s9 => tryExec env s9 (Stmt.createGinIndex tbl)
    else .error (e, s4)

/-- The index-repair path (handler lines 285–329): create the text index if
it was missing, then the fallback-aware vector index if that was missing. -/
def repair_indexes (env : Env) (tbl : String) (textIdx vecIdx : Bool) (s : Sess) :
    Except (String × Sess) Sess :=
  match (if !textIdx then tryExec env s (Stmt.createGinIndex tbl) else .ok s) with
  | .error p => .error p
  | .ok s1 =>
  if !vecIdx then repairVectorIndex env tbl s1 else .ok s1

/-- The body of `ensure_schema` (handler lines 190–421): create the pgvector
extension, fetch the columns, and dispatch — fresh creation when the table
is absent; otherwise compute `needs_migration`, probe both indexes, and run
migration (only when `AUTO_MIGRATE_SCHEMA`), or report-and-commit, or index
repair, or fall through to the final commit. -/
def ensure_schema_core (env : Env) (tbl : String) (s : Sess) : Except (CoreErr × Sess) Sess :=
  match tryExec env s Stmt.createExtensionVector with
  | .error p => .error (CoreErr.pg p.1, p.2)
  | .ok s1 =>
  match tryExec env s1 (Stmt.selectColumns tbl) with
  | .error p => .error (CoreErr.pg p.1, p.2)
  | .ok s2 =>
  let cols := tableColumns s2.db tbl
  if cols.isEmpty then
    match fresh_create env tbl s2 with
    | .error p => .error (CoreErr.pg p.1, p.2)
    | .ok s3 => .ok (doCommit s3)
  else
    let needsMig := needs_migration cols
    match tryExec env s2 (Stmt.selectTextIndex tbl) with
    | .error p => .error (CoreErr.pg p.1, p.2)
    | .ok s3 =>
    let textIdx := hasTextIndex s3.db tbl
    match tryExec env s3 (Stmt.selectVectorIndex tbl) with
    | .error p => .error (CoreErr.pg p.1, p.2)
    | .ok s4 =>
    let vecIdx := hasVectorIndex s4.db tbl
    if needsMig then
      if env.autoMigrate then
        match migrate_table_schema env tbl env.dims cols s4 with
        | .error p => .error p
        | .ok s5 => .ok (doCommit s5)
      else
        .ok (doCommit s4)
    else if needs_index_update textIdx vecIdx then
      match repair_indexes env tbl textIdx vecIdx s4 with
      | .error p => .error (CoreErr.pg p.1, p.2)
      | .ok s5 => .ok (doCommit s5)
    else
      .ok (doCommit s4)

/-- Closing the connection: uncommitted work is discarded. -/
def closeConn (s : Sess) : Sess :=
  { s with db := s.committed }

/-- What one `ensure_schema` call leaves behind: the final session (after
`conn.close()`), and the raised `DatabaseError` if any. -/
structure Outcome where
  sess : Sess
  err : Option AppError
deriving DecidableEq, Repr

/-- `ensure_schema` (handler lines 165–432): run the body, mapping a
propagating `psycopg2.Error` to
`DatabaseError(f"PostgreSQL error while creating schema: {...}")` and any
other exception to
`DatabaseError(f"Unexpected error while creating schema: {...}")`; the
`finally` close discards uncommitted state. -/
def ensure_schema (env : Env) (tbl : String) (s : Sess) : Outcome :=
  match ensure_schema_core env tbl s with
  | .ok s1 => { sess := closeConn s1, err := none }
  | .error (CoreErr.pg m, s1) =>
      { sess := closeConn s1,
        err := some (AppError.databaseError ("PostgreSQL error while creating schema: " ++ m)) }
  | .error (CoreErr.app e, s1) =>
      { sess := closeConn s1,
        err := some (AppError.databaseError ("Unexpected error while creating schema: " ++ appErrorMsg e)) }

/-- Invoke `ensure_schema` on a freshly opened session over a database. -/
def runEnsure (env : Env) (tbl : String) (db : DB) : Outcome :=
  ensure_schema env tbl { db := db, committed := db, trace := [] }

/-- The `{status, message}` record `lambda_handler` returns. -/
structure LambdaResponse where
  status : String
  message : String
deriving DecidableEq, Repr

/-- A value found under the `"table"` key of the event: a string, or
something of another type. -/
inductive EventVal where
  | str (s : String)
  | nonString
deriving DecidableEq, Repr

/-- The incoming Lambda event: either not a dictionary at all, or a
dictionary whose `"table"` entry may be absent. -/
inductive EventObj where
  | notDict
  | dict (table : Option EventVal)
deriving DecidableEq, Repr

/-- Python's `str.strip()`: drop whitespace from both ends. -/
def pyStrip (s : String) : String :=
  String.mk (((s.data.dropWhile Char.isWhitespace).reverse.dropWhile Char.isWhitespace).reverse)

/-- `validate_event` (handler lines 555–578). -/
def validate_event : EventObj → Except AppError String
  | .notDict => .error (AppError.configurationError "Event must be a dictionary")
  | .dict none => .error (AppError.configurationError "Missing 'table' in event")
  | .dict (some EventVal.nonString) =>
      .error (AppError.configurationError "Table name must be a non-empty string")
  | .dict (some (EventVal.str s)) =>
      if pyStrip s = "" then
        .error (AppError.configurationError "Table name must be a non-empty string")
      else .ok (pyStrip s)

/-- How `lambda_handler`'s except-clauses render each exception class into
the response message. -/
def renderError : AppError → String
  | .configurationError m => "Configuration error: " ++ m
  | .secretManagerError m => "Secrets Manager error: " ++ m
  | .databaseError m => "Database error: " ++ m
  | .unexpectedError m => "Unexpected error: " ++ m

/-- Everything one `lambda_handler` invocation can observe: the event, the
outcomes of the collaborator steps (`load_database_config`,
`get_secret_value`, `ensure_database_exists` — each `none` when the step
succeeds), and the environment and database `ensure_schema` runs against. -/
structure LambdaWorld where
  event : EventObj
  configErr : Option AppError
  secretErr : Option AppError
  ensureDbErr : Option AppError
  env : Env
  db : DB

/-- `lambda_handler` (handler lines 581–640): validate, load config, fetch
the secret, ensure the database, ensure the schema; every raised exception
is converted into an `{status: "error", message}` response. -/
def lambda_handler (w : LambdaWorld) : LambdaResponse :=
  match validate_event w.event with
  | .error e => { status := "error", message := renderError e }
  | .ok tbl =>
    match w.configErr with
    | some e => { status := "error", message := renderError e }
    | none =>
      match w.secretErr with
      | some e => { status := "error", message := renderError e }
      | none =>
        match w.ensureDbErr with
        | some e => { status := "error", message := renderError e }
        | none =>
          match (runEnsure w.env tbl w.db).err with
          | some e => { status := "error", message := renderError e }
          | none => { status := "success", message := "Schema ensured for table " ++ tbl }

/-- The first failing step of an invocation, if any (the exception that
reaches `lambda_handler`'s except-clauses). -/
def firstFailure (w : LambdaWorld) : Option AppError :=
  match validate_event w.event with
  | .error e => some e
  | .ok tbl =>
    match w.configErr with
    | some e => some e
    | none =>
      match w.secretErr with
      | some e => some e
      | none =>
        match w.ensureDbErr with
        | some e => some e
        | none => (runEnsure w.env tbl w.db).err

/-- Data-definition statements on tables and indexes — the statements the
spec calls DDL throughout (column DDL and index DDL).  The engine's
unconditional `CREATE EXTENSION IF NOT EXISTS` is session setup, a no-op
once the extension exists, and the `SELECT`/`INSERT` statements are reads
and data manipulation. -/
def isDDL : Stmt → Bool
  | .createTable _ _ _ => true
  | .createTableAsSelect _ _ => true
  | .dropTable _ => true
  | .createGinIndex _ => true
  | .createHnswIndex _ => true
  | .createIvfflatIndex _ => true
  | _ => false

/-- The destructive migration steps named by the spec: backup copy, drop,
recreate. -/
def isDestructiveStep : Stmt → Bool
  | .createTableAsSelect _ _ => true
  | .dropTable _ => true
  | .createTable _ _ _ => true
  | _ => false

/-- Backup-copy statements. -/
def isBackupStep : Stmt → Bool
  | .createTableAsSelect _ _ => true
  | _ => false

/-- Drop statements. -/
def isDropStep : Stmt → Bool
  | .dropTable _ => true
  | _ => false

/-- Fallback (IVFFlat) index-creation attempts. -/
def isIvfCreate : Stmt → Bool
  | .createIvfflatIndex _ => true
  | _ => false

/-- The data re-population statements of the migration. -/
def isRepopStep : Stmt → Bool
  | .insertTextMetadata _ _ => true
  | .insertTextOnly _ _ => true
  | _ => false

/-- Statements copying both text and metadata. -/
def isInsertTM : Stmt → Bool
  | .insertTextMetadata _ _ => true
  | _ => false

/-- Statements copying text alone. -/
def isInsertTextOnly : Stmt → Bool
  | .insertTextOnly _ _ => true
  | _ => false

/-- Index of the first statement satisfying a predicate. -/
def firstSatisfying : List Stmt → (Stmt → Bool) → Option Nat
  | [], _ => none
  | st :: rest, p => if p st then some 0 else (firstSatisfying rest p).map (· + 1)

/-- In the trace, some `p`-statement occurs and the first one precedes the
first `q`-statement. -/
def stepPrecedes (l : List Stmt) (p q : Stmt → Bool) : Prop :=
  match firstSatisfying l p, firstSatisfying l q with
  | some i, some j => i < j
  | _, _ => False

/-- Modelled from the spec: the identifier column's underlying type matches
the required primary-key type (`uuid`). -/
def spec_id_ok (cols : List ColumnDescriptor) : Bool :=
  match colLookup cols "id" with
  | some (_, udt) => udt == "uuid"
  | none => false

/-- Modelled from the spec: the vector column's underlying type matches the
required vector type (`vector`). -/
def spec_vector_ok (cols : List ColumnDescriptor) : Bool :=
  match colLookup cols "embedding" with
  | some (_, udt) => udt == "vector"
  | none => false

/-- Modelled from the spec: the metadata column is present. -/
def spec_metadata_present (cols : List ColumnDescriptor) : Bool :=
  (colLookup cols "metadata").isSome

/-- Modelled from the spec: all three column checks of `SchemaOk` pass. -/
def spec_columns_ok (cols : List ColumnDescriptor) : Bool :=
  spec_id_ok cols && spec_vector_ok cols && spec_metadata_present cols

/-- Fixture: an oracle on which every statement succeeds. -/
def failsNone : Stmt → Option String := fun _ => none

/-- Fixture: the server lacks the hnsw access method. -/
def failsNoHnsw : Stmt → Option String := fun st =>
  match st with
  | Stmt.createHnswIndex _ => some "ERROR: access method hnsw does not exist"
  | _ => none

/-- Fixture: the server lacks hnsw and ivfflat creation also fails. -/
def failsDeep : Stmt → Option String := fun st =>
  match st with
  | Stmt.createHnswIndex _ => some "ERROR: access method hnsw does not exist"
  | Stmt.createIvfflatIndex _ => some "ERROR: ivfflat creation failed"
  | _ => none

/-- Fixture: `DROP TABLE` fails (e.g. lock or disk error). -/
def failsDrop : Stmt → Option String := fun st =>
  match st with
  | Stmt.dropTable _ => some "ERROR: disk full"
  | _ => none

/-- Fixture: an empty database. -/
def emptyDB : DB := { tables := [], indexes := [], vectorExtension := false }

/-- Fixture: a table with a `varchar` identifier column and one row — a
`SchemaMismatch` table holding data. -/
def badTable : Table :=
  Table.mk
    [ColumnDescriptor.mk "id" "character varying" "varchar",
     ColumnDescriptor.mk "text" "text" "text"]
    [Row.mk (some "hello") none (some "v")]

/-- Fixture: database holding `badTable` under name `t`. -/
def dbBad : DB := { tables := [("t", badTable)], indexes := [], vectorExtension := false }

/-- Fixture: a table already in the target shape. -/
def okTable : Table := Table.mk (newSchemaColumns "embedding") []

/-- Fixture: `okTable` with neither index — an `IndexRepairOnly` state. -/
def dbNoIdx : DB := { tables := [("t", okTable)], indexes := [], vectorExtension := true }

/-- Fixture: `okTable` with both indexes — a `SchemaOk` state. -/
def dbOk : DB :=
  { tables := [("t", okTable)],
    indexes := [IndexDef.mk "t_text_gin_idx" "t" IndexKind.ginText,
                IndexDef.mk "t_embedding_hnsw_idx" "t" IndexKind.hnsw],
    vectorExtension := true }

/-- Fixture: permissive migration environment with no failures. -/
def envMig : Env := { autoMigrate := true, dims := 3, now := 0, fails := failsNone }

/-- Fixture: no-migration environment with no failures. -/
def envOk : Env := { autoMigrate := false, dims := 3, now := 0, fails := failsNone }

/-- Fixture: no-migration environment lacking hnsw. -/
def envNoHnsw : Env := { autoMigrate := false, dims := 3, now := 0, fails := failsNoHnsw }

/-- Fixture: no-migration environment lacking hnsw with ivfflat also failing. -/
def envDeep : Env := { autoMigrate := false, dims := 3, now := 0, fails := failsDeep }

/-- Fixture: permissive migration environment whose `DROP TABLE` fails. -/
def envMigDropFail : Env := { autoMigrate := true, dims := 3, now := 0, fails := failsDrop }

/-- Fixture: a fully healthy `lambda_handler` invocation. -/
def wOk : LambdaWorld :=
  LambdaWorld.mk (EventObj.dict (some (EventVal.str "t"))) none none none envOk emptyDB

/-- Fixture: `wOk` with a failing configuration step. -/
def wBadConfig : LambdaWorld :=
  LambdaWorld.mk (EventObj.dict (some (EventVal.str "t")))
    (some (AppError.configurationError "Config failed")) none none envOk emptyDB

/-- The code's `needs_migration` flag is exactly the negation of the spec's
three column checks. -/
theorem needs_migration_eq_not_spec (cols : List ColumnDescriptor) :
    needs_migration cols = !spec_columns_ok cols := by
  unfold needs_migration spec_columns_ok spec_id_ok spec_vector_ok spec_metadata_present
  rcases colLookup cols "id" with _ | ⟨dt1, udt1⟩ <;>
    rcases colLookup cols "embedding" with _ | ⟨dt2, udt2⟩ <;>
    rcases colLookup cols "metadata" with _ | m <;>
    simp [bne, Bool.or_comm, Bool.or_assoc, Bool.and_comm, Bool.and_assoc]

/-- C1: for every existing table, the divergence classification computed by
`ensure_schema` equals the spec's reference decision: the outcome is
`SchemaOk` exactly when the identifier column's underlying type is `uuid`,
the vector column's underlying type is `vector`, the metadata column is
present, and both indexes are present; and whenever a column check fails the
decision is `SchemaMismatch` regardless of index state. -/
theorem classification_matches_spec (cols : List ColumnDescriptor) (tIdx vIdx : Bool)
    (h : cols ≠ []) :
    (classify cols tIdx vIdx = ReconciliationDecision.SchemaOk ↔
      (spec_id_ok cols = true ∧ spec_vector_ok cols = true ∧
       spec_metadata_present cols = true ∧ tIdx = true ∧ vIdx = true))
    ∧ (spec_columns_ok cols = false →
       classify cols tIdx vIdx = ReconciliationDecision.SchemaMismatch) := by
  have hne : cols.isEmpty = false := by
    cases cols with
    | nil => exact absurd rfl h
    | cons a l => rfl
  unfold classify needs_index_update
  rw [needs_migration_eq_not_spec, hne]
  cases hs : spec_columns_ok cols with
  | false =>
      constructor
      · constructor
        · intro hcl
          simp at hcl
        · intro ⟨h1, h2, h3, _⟩
          unfold spec_columns_ok at hs
          rw [h1, h2, h3] at hs
          simp at hs
      · intro _
        simp
  | true =>
      have hparts := hs
      unfold spec_columns_ok at hparts
      simp only [Bool.and_eq_true] at hparts
      obtain ⟨⟨h1, h2⟩, h3⟩ := hparts
      cases tIdx <;> cases vIdx <;> simp [h1, h2, h3]

/-- Witness for C1 at a schema-correct column list with both indexes. -/
theorem classification_matches_spec_witness :
    (classify (newSchemaColumns "embedding") true true = ReconciliationDecision.SchemaOk ↔
      (spec_id_ok (newSchemaColumns "embedding") = true ∧
       spec_vector_ok (newSchemaColumns "embedding") = true ∧
       spec_metadata_present (newSchemaColumns "embedding") = true ∧ true = true ∧ true = true))
    ∧ (spec_columns_ok (newSchemaColumns "embedding") = false →
       classify (newSchemaColumns "embedding") true true = ReconciliationDecision.SchemaMismatch) :=
  classification_matches_spec (newSchemaColumns "embedding") true true (by decide)

/-- C6 (behavior of the code at the failing input): on a table already in
the target column shape but with both indexes missing, when the server
lacks the hnsw access method the repair path creates the text-search index,
then `conn.rollback()` after the failed hnsw attempt rolls back the whole
open transaction — discarding that text index — and the call commits only
the fallback vector index and reports success, leaving the text-search
index absent.  The claim (and spec) say only the failed statement is undone
and previously-applied DDL in the same session survives; the code loses it. -/
theorem repair_rollback_loses_text_index :
    classifyDb dbNoIdx "t" = ReconciliationDecision.IndexRepairOnly
    ∧ (runEnsure envNoHnsw "t" dbNoIdx).err = none
    ∧ ((runEnsure envNoHnsw "t" dbNoIdx).sess.trace.countP
        (fun st => st == Stmt.createGinIndex "t")) = 1
    ∧ hasTextIndex (runEnsure envNoHnsw "t" dbNoIdx).sess.db "t" = false
    ∧ hasVectorIndex (runEnsure envNoHnsw "t" dbNoIdx).sess.db "t" = true := by
  decide

/-- C10: in the fresh-creation path, when the hnsw attempt fails with the
capability error and the ivfflat attempt also fails, the deep-fallback
branch recreates the table with its vector column named `embeddings`, so
the invocation succeeds but the resulting table has no `embedding` column
and the classifier judges it `SchemaMismatch`. -/
theorem deep_fallback_declares_embeddings_column :
    (runEnsure envDeep "t" emptyDB).err = none
    ∧ colLookup (tableColumns (runEnsure envDeep "t" emptyDB).sess.db "t") "embedding" = none
    ∧ colLookup (tableColumns (runEnsure envDeep "t" emptyDB).sess.db "t") "embeddings"
        = some ("USER-DEFINED", "vector")
    ∧ classifyDb (runEnsure envDeep "t" emptyDB).sess.db "t"
        = ReconciliationDecision.SchemaMismatch := by
  decide

/-- C4 counterexample: a destructive migration of a one-row mismatched table
whose `DROP TABLE` step fails.  The backup-copy step ran (it appears in the
trace), but because it executed inside the migration transaction the
rollback triggered by the failed drop removes it: after the migration no
table with the backup name exists, refuting the claim that the backup
exists independent of downstream success or failure. -/
theorem backup_not_durable_on_structural_failure :
    1 ≤ (tableRows dbBad "t").length
    ∧ envMigDropFail.autoMigrate = true
    ∧ classifyDb dbBad "t" = ReconciliationDecision.SchemaMismatch
    ∧ (firstSatisfying (runEnsure envMigDropFail "t" dbBad).sess.trace isBackupStep).isSome = true
    ∧ (runEnsure envMigDropFail "t" dbBad).err ≠ none
    ∧ lookupTable (runEnsure envMigDropFail "t" dbBad).sess.db
        (backupName envMigDropFail "t") = none := by
  decide

/-- A `SchemaMismatch` classification means: the column set is non-empty and
`needs_migration` holds. -/
theorem mismatch_elim {cols : List ColumnDescriptor} {tIdx vIdx : Bool}
    (h : classify cols tIdx vIdx = ReconciliationDecision.SchemaMismatch) :
    cols.isEmpty = false ∧ needs_migration cols = true := by
  unfold classify at h
  cases he : cols.isEmpty with
  | true => simp [he] at h
  | false =>
    cases hnm : needs_migration cols with
    | true => exact ⟨rfl, rfl⟩
    | false =>
      cases hni : needs_index_update tIdx vIdx <;> simp [he, hnm, hni] at h

/-- Changing only the extension flag leaves table lookups unchanged. -/
@[simp] theorem lookupTable_extFlag (db : DB) (b : Bool) (t : String) :
    lookupTable ⟨db.tables, db.indexes, b⟩ t = lookupTable db t := rfl

/-- Changing only the extension flag leaves the column view unchanged. -/
@[simp] theorem tableColumns_extFlag (db : DB) (b : Bool) (t : String) :
    tableColumns ⟨db.tables, db.indexes, b⟩ t = tableColumns db t := rfl

/-- Changing only the extension flag leaves the row view unchanged. -/
@[simp] theorem tableRows_extFlag (db : DB) (b : Bool) (t : String) :
    tableRows ⟨db.tables, db.indexes, b⟩ t = tableRows db t := rfl

/-- Changing only the extension flag leaves the text-index probe unchanged. -/
@[simp] theorem hasTextIndex_extFlag (db : DB) (b : Bool) (t : String) :
    hasTextIndex ⟨db.tables, db.indexes, b⟩ t = hasTextIndex db t := rfl

/-- Changing only the extension flag leaves the vector-index probe unchanged. -/
@[simp] theorem hasVectorIndex_extFlag (db : DB) (b : Bool) (t : String) :
    hasVectorIndex ⟨db.tables, db.indexes, b⟩ t = hasVectorIndex db t := rfl

/-- C2: with the destructive-migration permission flag false and a
`SchemaMismatch` classification, no backup/drop/recreate statement is ever
executed, the table is left untouched, and (absent statement failures) the
call returns after reporting. -/
theorem no_destructive_migration_without_permission (env : Env) (tbl : String) (db : DB)
    (hflag : env.autoMigrate = false)
    (hmis : classifyDb db tbl = ReconciliationDecision.SchemaMismatch) :
    ((runEnsure env tbl db).sess.trace.countP isDestructiveStep = 0)
    ∧ lookupTable (runEnsure env tbl db).sess.db tbl = lookupTable db tbl
    ∧ ((∀ st, env.fails st = none) → (runEnsure env tbl db).err = none) := by
  obtain ⟨he, hnm⟩ := mismatch_elim hmis
  have hne : tableColumns db tbl ≠ [] := by
    intro hc
    rw [hc] at he
    simp at he
  cases hf1 : env.fails Stmt.createExtensionVector with
  | some e1 =>
    refine ⟨?_, ?_, ?_⟩
    · simp [runEnsure, ensure_schema, ensure_schema_core, tryExec, hf1, closeConn,
        isDestructiveStep]
    · simp [runEnsure, ensure_schema, ensure_schema_core, tryExec, hf1, closeConn]
    · intro hall; rw [hall] at hf1; cases hf1
  | none =>
  cases hf2 : env.fails (Stmt.selectColumns tbl) with
  | some e2 =>
    refine ⟨?_, ?_, ?_⟩
    · simp [runEnsure, ensure_schema, ensure_schema_core, tryExec, hf1, hf2, closeConn,
        stmtEffect, isDestructiveStep]
    · simp [runEnsure, ensure_schema, ensure_schema_core, tryExec, hf1, hf2, closeConn,
        stmtEffect]
    · intro hall; rw [hall] at hf2; cases hf2
  | none =>
  cases hf3 : env.fails (Stmt.selectTextIndex tbl) with
  | some e3 =>
    refine ⟨?_, ?_, ?_⟩
    · simp [runEnsure, ensure_schema, ensure_schema_core, tryExec, hf1, hf2, hf3, closeConn,
        stmtEffect, isDestructiveStep, hne, hnm]
    · simp [runEnsure, ensure_schema, ensure_schema_core, tryExec, hf1, hf2, hf3, closeConn,
        stmtEffect, hne, hnm]
    · intro hall; rw [hall] at hf3; cases hf3
  | none =>
  cases hf4 : env.fails (Stmt.selectVectorIndex tbl) with
  | some e4 =>
    refine ⟨?_, ?_, ?_⟩
    · simp [runEnsure, ensure_schema, ensure_schema_core, tryExec, hf1, hf2, hf3, hf4, closeConn,
        stmtEffect, isDestructiveStep, hne, hnm]
    · simp [runEnsure, ensure_schema, ensure_schema_core, tryExec, hf1, hf2, hf3, hf4, closeConn,
        stmtEffect, hne, hnm]
    · intro hall; rw [hall] at hf4; cases hf4
  | none =>
    refine ⟨?_, ?_, ?_⟩
    · simp [runEnsure, ensure_schema, ensure_schema_core, tryExec, hf1, hf2, hf3, hf4, closeConn,
        stmtEffect, isDestructiveStep, hne, hnm, hflag, doCommit]
    · simp [runEnsure, ensure_schema, ensure_schema_core, tryExec, hf1, hf2, hf3, hf4, closeConn,
        stmtEffect, hne, hnm, hflag, doCommit]
    · intro _
      simp [runEnsure, ensure_schema, ensure_schema_core, tryExec, hf1, hf2, hf3, hf4, closeConn,
        stmtEffect, hne, hnm, hflag, doCommit]

/-- Witness for C2: a mismatched table under the default (false) flag. -/
theorem no_destructive_migration_without_permission_witness :
    ((runEnsure envOk "t" dbBad).sess.trace.countP isDestructiveStep = 0)
    ∧ lookupTable (runEnsure envOk "t" dbBad).sess.db "t" = lookupTable dbBad "t"
    ∧ (runEnsure envOk "t" dbBad).err = none :=
  ⟨(no_destructive_migration_without_permission envOk "t" dbBad rfl (by decide)).1,
   (no_destructive_migration_without_permission envOk "t" dbBad rfl (by decide)).2.1,
   (no_destructive_migration_without_permission envOk "t" dbBad rfl (by decide)).2.2
     (fun _ => rfl)⟩

/-- A `SchemaOk` classification means: columns non-empty, no migration
needed, no index update needed. -/
theorem schemaOk_elim {cols : List ColumnDescriptor} {tIdx vIdx : Bool}
    (h : classify cols tIdx vIdx = ReconciliationDecision.SchemaOk) :
    cols.isEmpty = false ∧ needs_migration cols = false
    ∧ needs_index_update tIdx vIdx = false := by
  unfold classify at h
  cases he : cols.isEmpty with
  | true => simp [he] at h
  | false =>
    cases hnm : needs_migration cols with
    | true => simp [he, hnm] at h
    | false =>
      cases hni : needs_index_update tIdx vIdx with
      | true => simp [he, hnm, hni] at h
      | false => exact ⟨rfl, rfl, rfl⟩

/-- The classification depends only on tables and indexes. -/
theorem classifyDb_congr {db1 db2 : DB} (t : String)
    (h1 : db1.tables = db2.tables) (h2 : db1.indexes = db2.indexes) :
    classifyDb db1 t = classifyDb db2 t := by
  unfold classifyDb tableColumns lookupTable hasTextIndex hasVectorIndex
  rw [h1, h2]

/-- Running `ensure_schema` on a `SchemaOk` table executes no DDL statement
and leaves tables and indexes untouched, whatever the failure oracle does. -/
theorem schemaOk_run (env : Env) (tbl : String) (db : DB)
    (hok : classifyDb db tbl = ReconciliationDecision.SchemaOk) :
    (runEnsure env tbl db).sess.trace.countP isDDL = 0
    ∧ (runEnsure env tbl db).sess.db.tables = db.tables
    ∧ (runEnsure env tbl db).sess.db.indexes = db.indexes := by
  obtain ⟨he, hnm, hni⟩ := schemaOk_elim hok
  have hne : tableColumns db tbl ≠ [] := by
    intro hc
    rw [hc] at he
    simp at he
  cases hf1 : env.fails Stmt.createExtensionVector with
  | some e1 =>
    refine ⟨?_, ?_, ?_⟩ <;>
      simp [runEnsure, ensure_schema, ensure_schema_core, tryExec, hf1, closeConn, isDDL]
  | none =>
  cases hf2 : env.fails (Stmt.selectColumns tbl) with
  | some e2 =>
    refine ⟨?_, ?_, ?_⟩ <;>
      simp [runEnsure, ensure_schema, ensure_schema_core, tryExec, hf1, hf2, closeConn,
        stmtEffect, isDDL]
  | none =>
  cases hf3 : env.fails (Stmt.selectTextIndex tbl) with
  | some e3 =>
    refine ⟨?_, ?_, ?_⟩ <;>
      simp [runEnsure, ensure_schema, ensure_schema_core, tryExec, hf1, hf2, hf3, closeConn,
        stmtEffect, isDDL, hne, hnm]
  | none =>
  cases hf4 : env.fails (Stmt.selectVectorIndex tbl) with
  | some e4 =>
    refine ⟨?_, ?_, ?_⟩ <;>
      simp [runEnsure, ensure_schema, ensure_schema_core, tryExec, hf1, hf2, hf3, hf4, closeConn,
        stmtEffect, isDDL, hne, hnm]
  | none =>
    refine ⟨?_, ?_, ?_⟩ <;>
      simp [runEnsure, ensure_schema, ensure_schema_core, tryExec, hf1, hf2, hf3, hf4, closeConn,
        stmtEffect, isDDL, hne, hnm, hni, doCommit]

/-- C7: invoking reconciliation twice in a row on a `SchemaOk` table
performs zero DDL statements (table or index DDL) on the second call. -/
theorem second_run_on_schemaok_performs_no_ddl (env : Env) (tbl : String) (db : DB)
    (hok : classifyDb db tbl = ReconciliationDecision.SchemaOk) :
    (runEnsure env tbl ((runEnsure env tbl db).sess.db)).sess.trace.countP isDDL = 0 := by
  have h1 := schemaOk_run env tbl db hok
  have hok1 : classifyDb ((runEnsure env tbl db).sess.db) tbl
      = ReconciliationDecision.SchemaOk := by
    rw [classifyDb_congr tbl h1.2.1 h1.2.2]
    exact hok
  exact (schemaOk_run env tbl ((runEnsure env tbl db).sess.db) hok1).1

/-- Witness for C7: a healthy table, no failures. -/
theorem second_run_on_schemaok_performs_no_ddl_witness :
    (runEnsure envOk "t" ((runEnsure envOk "t" dbOk).sess.db)).sess.trace.countP isDDL = 0 :=
  second_run_on_schemaok_performs_no_ddl envOk "t" dbOk (by decide)

/-- Adding an index of a different kind does not make `hasIndexKind` true. -/
theorem hasIndexKind_addIndexIfAbsent (db : DB) (i : IndexDef) (t : String) (k : IndexKind)
    (hk : (i.kind == k) = false) :
    hasIndexKind (addIndexIfAbsent db i) t k = hasIndexKind db t k := by
  unfold addIndexIfAbsent hasIndexKind
  split
  · rfl
  · simp [List.any_append, hk]

/-- C5: when the preferred (hnsw) similarity-index creation fails, then —
in both the index-repair and the migration provisioning code — if the error
message names the missing access method, exactly one fallback (ivfflat)
creation attempt follows and no index from the failed attempt persists;
for every other failure class the error propagates unchanged with no
fallback attempt. -/
theorem vector_index_fallback (env : Env) (tbl : String) (s : Sess) (e : String)
    (hclean : s.committed = s.db)
    (hfail : env.fails (Stmt.createHnswIndex tbl) = some e) :
    (isCapabilityError e = true →
      (sessOf (repairVectorIndex env tbl s)).trace.countP isIvfCreate
        = s.trace.countP isIvfCreate + 1
      ∧ (sessOf (migrateVectorIndex env tbl s)).trace.countP isIvfCreate
        = s.trace.countP isIvfCreate + 1
      ∧ (hasIndexKind s.db tbl IndexKind.hnsw = false →
          hasIndexKind (sessOf (repairVectorIndex env tbl s)).db tbl IndexKind.hnsw = false
          ∧ hasIndexKind (sessOf (migrateVectorIndex env tbl s)).db tbl IndexKind.hnsw = false))
    ∧ (isCapabilityError e = false →
      (∃ s1, repairVectorIndex env tbl s = .error (e, s1)
        ∧ s1.trace.countP isIvfCreate = s.trace.countP isIvfCreate)
      ∧ (∃ s2, migrateVectorIndex env tbl s = .error (e, s2)
        ∧ s2.trace.countP isIvfCreate = s.trace.countP isIvfCreate)) := by
  constructor
  · intro hcap
    cases hivf : env.fails (Stmt.createIvfflatIndex tbl) with
    | some e2 =>
      refine ⟨?_, ?_, ?_⟩
      · simp [repairVectorIndex, tryExec, hfail, hivf, hcap, doRollback, sessOf,
          List.countP_append, isIvfCreate]
      · simp [migrateVectorIndex, tryExec, hfail, hivf, hcap, sessOf,
          List.countP_append, isIvfCreate]
      · intro hno
        constructor
        · simp [repairVectorIndex, tryExec, hfail, hivf, hcap, doRollback, sessOf, hclean, hno]
        · simp [migrateVectorIndex, tryExec, hfail, hivf, hcap, sessOf, hno]
    | none =>
      refine ⟨?_, ?_, ?_⟩
      · simp [repairVectorIndex, tryExec, hfail, hivf, hcap, doRollback, sessOf,
          List.countP_append, isIvfCreate]
      · simp [migrateVectorIndex, tryExec, hfail, hivf, hcap, sessOf,
          List.countP_append, isIvfCreate]
      · intro hno
        constructor
        · simp only [repairVectorIndex, tryExec, hfail, hivf, hcap, doRollback, sessOf, hclean,
            stmtEffect, if_true]
          rw [hasIndexKind_addIndexIfAbsent _ ⟨tbl ++ "_embedding_ivfflat_idx", tbl, IndexKind.ivfflat⟩ tbl IndexKind.hnsw rfl]
          exact hno
        · simp only [migrateVectorIndex, tryExec, hfail, hivf, hcap, sessOf,
            stmtEffect, if_true]
          rw [hasIndexKind_addIndexIfAbsent _ ⟨tbl ++ "_embedding_ivfflat_idx", tbl, IndexKind.ivfflat⟩ tbl IndexKind.hnsw rfl]
          exact hno
  · intro hcap
    constructor
    · refine ⟨doRollback { s with trace := s.trace ++ [Stmt.createHnswIndex tbl] }, ?_, ?_⟩
      · simp [repairVectorIndex, tryExec, hfail, hcap]
      · simp [doRollback, List.countP_append, isIvfCreate]
    · refine ⟨{ s with trace := s.trace ++ [Stmt.createHnswIndex tbl] }, ?_, ?_⟩
      · simp [migrateVectorIndex, tryExec, hfail, hcap]
      · simp [List.countP_append, isIvfCreate]

/-- Witness for C5: both provisioning sites, hnsw rejected by capability. -/
theorem vector_index_fallback_witness :
    (sessOf (repairVectorIndex envNoHnsw "t" ⟨dbNoIdx, dbNoIdx, []⟩)).trace.countP isIvfCreate = 1
    ∧ (sessOf (migrateVectorIndex envNoHnsw "t" ⟨dbNoIdx, dbNoIdx, []⟩)).trace.countP isIvfCreate = 1
    ∧ (hasIndexKind (sessOf (repairVectorIndex envNoHnsw "t" ⟨dbNoIdx, dbNoIdx, []⟩)).db "t"
          IndexKind.hnsw = false
       ∧ hasIndexKind (sessOf (migrateVectorIndex envNoHnsw "t" ⟨dbNoIdx, dbNoIdx, []⟩)).db "t"
          IndexKind.hnsw = false) :=
  have h := (vector_index_fallback envNoHnsw "t" ⟨dbNoIdx, dbNoIdx, []⟩
    "ERROR: access method hnsw does not exist" rfl rfl).1 (by decide)
  ⟨h.1, h.2.1, h.2.2 (by decide)⟩

/-- Every list starts with itself. -/
theorem charsStartWith_self (l : List Char) : charsStartWith l l = true := by
  induction l with
  | nil => rfl
  | cons c cs ih => simp [charsStartWith, ih]

/-- A list containing a pattern at its head contains it. -/
theorem charsContain_of_startWith {p l : List Char}
    (h : charsStartWith p l = true) : charsContain p l = true := by
  cases l with
  | nil => simpa [charsContain] using h
  | cons c cs => simp [charsContain, h]

/-- Containment is stable under prepending. -/
theorem charsContain_append_left (pre : List Char) {p l : List Char}
    (h : charsContain p l = true) : charsContain p (pre ++ l) = true := by
  induction pre with
  | nil => simpa using h
  | cons c cs ih => simp [charsContain, ih]

/-- A string contains itself. -/
theorem strContains_self (a : String) : strContains a a = true :=
  charsContain_of_startWith (charsStartWith_self a.data)

/-- A prefixed string still contains what the suffix contains. -/
theorem strContains_prepend (a : String) {b c : String}
    (h : strContains b c = true) : strContains (a ++ b) c = true := by
  unfold strContains at h ⊢
  rw [String.data_append]
  exact charsContain_append_left a.data h

/-- Inversion of a failed statement execution. -/
theorem tryExec_error_inv {env : Env} {s : Sess} {st : Stmt} {e : String} {s1 : Sess}
    (h : tryExec env s st = .error (e, s1)) :
    env.fails st = some e ∧ s1 = { s with trace := s.trace ++ [st] } := by
  unfold tryExec at h
  cases hf : env.fails st with
  | none => simp [hf] at h
  | some e0 =>
    simp [hf] at h
    exact ⟨by rw [h.1], h.2.symm⟩

/-- Inversion of a successful statement execution. -/
theorem tryExec_ok_inv {env : Env} {s : Sess} {st : Stmt} {s1 : Sess}
    (h : tryExec env s st = .ok s1) :
    env.fails st = none
    ∧ s1 = { db := stmtEffect st s.db, committed := s.committed, trace := s.trace ++ [st] } := by
  unfold tryExec at h
  cases hf : env.fails st with
  | some e0 => simp [hf] at h
  | none =>
    simp [hf] at h
    exact ⟨rfl, h.symm⟩

/-- An error leaving the repair-path vector provisioning is the hnsw
failure itself, with the commit snapshot untouched. -/
theorem repairVectorIndex_err {env : Env} {tbl : String} {s : Sess} {e : String} {s1 : Sess}
    (h : repairVectorIndex env tbl s = .error (e, s1)) :
    s1.committed = s.committed ∧ env.fails (Stmt.createHnswIndex tbl) = some e := by
  unfold repairVectorIndex at h
  cases hr : tryExec env s (Stmt.createHnswIndex tbl) with
  | ok s2 => rw [hr] at h; cases h
  | error p =>
    obtain ⟨e0, s2⟩ := p
    obtain ⟨hf, hs⟩ := tryExec_error_inv hr
    rw [hr] at h
    cases hcap : isCapabilityError e0 with
    | true =>
      simp only [hcap, if_true] at h
      cases hivf : tryExec env (doRollback s2) (Stmt.createIvfflatIndex tbl) with
      | ok s3 => rw [hivf] at h; cases h
      | error q => rw [hivf] at h; cases h
    | false =>
      simp only [hcap, Bool.false_eq_true, if_false, Except.error.injEq, Prod.mk.injEq] at h
      obtain ⟨he, hs1⟩ := h
      subst he
      refine ⟨?_, hf⟩
      rw [← hs1]
      simp [doRollback, hs]

/-- An error leaving the migration-path vector provisioning is the hnsw
failure itself, with the commit snapshot untouched. -/
theorem migrateVectorIndex_err {env : Env} {tbl : String} {s : Sess} {e : String} {s1 : Sess}
    (h : migrateVectorIndex env tbl s = .error (e, s1)) :
    s1.committed = s.committed ∧ env.fails (Stmt.createHnswIndex tbl) = some e := by
  unfold migrateVectorIndex at h
  cases hr : tryExec env s (Stmt.createHnswIndex tbl) with
  | ok s2 => rw [hr] at h; cases h
  | error p =>
    obtain ⟨e0, s2⟩ := p
    obtain ⟨hf, hs⟩ := tryExec_error_inv hr
    rw [hr] at h
    cases hcap : isCapabilityError e0 with
    | true =>
      simp only [hcap, if_true] at h
      cases hivf : tryExec env s2 (Stmt.createIvfflatIndex tbl) with
      | ok s3 => rw [hivf] at h; cases h
      | error q => rw [hivf] at h; cases h
    | false =>
      simp only [hcap, Bool.false_eq_true, if_false, Except.error.injEq, Prod.mk.injEq] at h
      obtain ⟨he, hs1⟩ := h
      subst he
      refine ⟨?_, hf⟩
      rw [← hs1, hs]

/-- An error leaving the index-repair path carries some failing statement's
message, with the commit snapshot untouched. -/
theorem repair_indexes_err {env : Env} {tbl : String} {textIdx vecIdx : Bool} {s : Sess}
    {e : String} {s1 : Sess}
    (h : repair_indexes env tbl textIdx vecIdx s = .error (e, s1)) :
    s1.committed = s.committed ∧ ∃ st, env.fails st = some e := by
  unfold repair_indexes at h
  cases hg : (if !textIdx then tryExec env s (Stmt.createGinIndex tbl) else .ok s) with
  | error p =>
    obtain ⟨e0, s2⟩ := p
    rw [hg] at h
    cases h
    cases htx : !textIdx with
    | true =>
      rw [htx, if_pos rfl] at hg
      obtain ⟨hf, hs⟩ := tryExec_error_inv hg
      exact ⟨by rw [hs], ⟨Stmt.createGinIndex tbl, hf⟩⟩
    | false =>
      rw [htx, if_neg (by simp)] at hg
      cases hg
  | ok s2 =>
    rw [hg] at h
    dsimp only at h
    have hcomm2 : s2.committed = s.committed := by
      cases htx : !textIdx with
      | true =>
        rw [htx, if_pos rfl] at hg
        obtain ⟨_, hs⟩ := tryExec_ok_inv hg
        rw [hs]
      | false =>
        rw [htx, if_neg (by simp)] at hg
        cases hg
        rfl
    cases hv : !vecIdx with
    | true =>
      rw [hv, if_pos rfl] at h
      obtain ⟨hc, hf⟩ := repairVectorIndex_err h
      exact ⟨by rw [hc, hcomm2], ⟨Stmt.createHnswIndex tbl, hf⟩⟩
    | false =>
      rw [hv, if_neg (by simp)] at h
      cases h

/-- An error leaving the fresh-creation path carries some failing
statement's message, with the commit snapshot untouched. -/
theorem fresh_create_err {env : Env} {tbl : String} {s : Sess} {e : String} {s1 : Sess}
    (h : fresh_create env tbl s = .error (e, s1)) :
    s1.committed = s.committed ∧ ∃ st, env.fails st = some e := by
  unfold fresh_create at h
  cases h1 : tryExec env s (Stmt.createTable tbl "embedding" env.dims) with
  | error p =>
    obtain ⟨e0, s2⟩ := p
    rw [h1] at h
    cases h
    obtain ⟨hf, hs⟩ := tryExec_error_inv h1
    exact ⟨by rw [hs], ⟨_, hf⟩⟩
  | ok sA =>
    rw [h1] at h
    dsimp only at h
    obtain ⟨_, hsA⟩ := tryExec_ok_inv h1
    have hcA : sA.committed = s.committed := by rw [hsA]
    cases h2 : tryExec env sA (Stmt.createGinIndex tbl) with
    | error p =>
      obtain ⟨e0, s2⟩ := p
      rw [h2] at h
      cases h
      obtain ⟨hf, hs⟩ := tryExec_error_inv h2
      exact ⟨by rw [hs]; exact hcA, ⟨_, hf⟩⟩
    | ok sB =>
      rw [h2] at h
      dsimp only at h
      obtain ⟨_, hsB⟩ := tryExec_ok_inv h2
      have hcB : sB.committed = s.committed := by rw [hsB]; exact hcA
      cases h3 : tryExec env sB (Stmt.createHnswIndex tbl) with
      | ok sC => rw [h3] at h; cases h
      | error p =>
        obtain ⟨e0, sC⟩ := p
        rw [h3] at h
        dsimp only at h
        obtain ⟨hf3, hsC⟩ := tryExec_error_inv h3
        have hcC : (doRollback sC).committed = s.committed := by
          unfold doRollback
          rw [hsC]
          exact hcB
        cases hcap : isCapabilityError e0 with
        | false =>
          rw [hcap, if_neg (by simp)] at h
          cases h
          exact ⟨hcC, ⟨_, hf3⟩⟩
        | true =>
          rw [hcap, if_pos rfl] at h
          try dsimp only at h
          cases h4 : tryExec env (doRollback sC) (Stmt.createTable tbl "embedding" env.dims) with
          | error p =>
            obtain ⟨e4, s4⟩ := p
            rw [h4] at h
            dsimp only at h
            obtain ⟨_, hs4⟩ := tryExec_error_inv h4
            have hc4 : (doRollback s4).committed = s.committed := by
              unfold doRollback
              rw [hs4]
              exact hcC
            cases h7 : tryExec env (doRollback s4) (Stmt.createTable tbl "embeddings" env.dims) with
            | error p =>
              obtain ⟨e7, s7⟩ := p
              rw [h7] at h
              cases h
              obtain ⟨hf7, hs7⟩ := tryExec_error_inv h7
              exact ⟨by rw [hs7]; exact hc4, ⟨_, hf7⟩⟩
            | ok s8 =>
              rw [h7] at h
              dsimp only at h
              obtain ⟨_, hs8⟩ := tryExec_ok_inv h7
              have hc8 : s8.committed = s.committed := by rw [hs8]; exact hc4
              obtain ⟨hf9, hs9⟩ := tryExec_error_inv h
              exact ⟨by rw [hs9]; exact hc8, ⟨_, hf9⟩⟩
          | ok s4 =>
            rw [h4] at h
            dsimp only at h
            obtain ⟨_, hs4⟩ := tryExec_ok_inv h4
            have hc4 : s4.committed = s.committed := by rw [hs4]; exact hcC
            cases h5 : tryExec env s4 (Stmt.createGinIndex tbl) with
            | error p =>
              obtain ⟨e5, s5⟩ := p
              rw [h5] at h
              dsimp only at h
              obtain ⟨_, hs5⟩ := tryExec_error_inv h5
              have hc5 : (doRollback s5).committed = s.committed := by
                unfold doRollback
                rw [hs5]
                exact hc4
              cases h7 : tryExec env (doRollback s5) (Stmt.createTable tbl "embeddings" env.dims) with
              | error p =>
                obtain ⟨e7, s7⟩ := p
                rw [h7] at h
                cases h
                obtain ⟨hf7, hs7⟩ := tryExec_error_inv h7
                exact ⟨by rw [hs7]; exact hc5, ⟨_, hf7⟩⟩
              | ok s8 =>
                rw [h7] at h
                dsimp only at h
                obtain ⟨_, hs8⟩ := tryExec_ok_inv h7
                have hc8 : s8.committed = s.committed := by rw [hs8]; exact hc5
                obtain ⟨hf9, hs9⟩ := tryExec_error_inv h
                exact ⟨by rw [hs9]; exact hc8, ⟨_, hf9⟩⟩
            | ok s5 =>
              rw [h5] at h
              dsimp only at h
              obtain ⟨_, hs5⟩ := tryExec_ok_inv h5
              have hc5 : s5.committed = s.committed := by rw [hs5]; exact hc4
              cases h6 : tryExec env s5 (Stmt.createIvfflatIndex tbl) with
              | ok s6 => rw [h6] at h; cases h
              | error p =>
                obtain ⟨e6, s6⟩ := p
                rw [h6] at h
                dsimp only at h
                obtain ⟨_, hs6⟩ := tryExec_error_inv h6
                have hc6 : (doRollback s6).committed = s.committed := by
                  unfold doRollback
                  rw [hs6]
                  exact hc5
                cases h7 : tryExec env (doRollback s6) (Stmt.createTable tbl "embeddings" env.dims) with
                | error p =>
                  obtain ⟨e7, s7⟩ := p
                  rw [h7] at h
                  cases h
                  obtain ⟨hf7, hs7⟩ := tryExec_error_inv h7
                  exact ⟨by rw [hs7]; exact hc6, ⟨_, hf7⟩⟩
                | ok s8 =>
                  rw [h7] at h
                  dsimp only at h
                  obtain ⟨_, hs8⟩ := tryExec_ok_inv h7
                  have hc8 : s8.committed = s.committed := by rw [hs8]; exact hc6
                  obtain ⟨hf9, hs9⟩ := tryExec_error_inv h
                  exact ⟨by rw [hs9]; exact hc8, ⟨_, hf9⟩⟩

/-- An error leaving the post-backup migration steps carries some failing
statement's message, with the commit snapshot untouched. -/
theorem migrate_rest_err {env : Env} {tbl : String} {dims : Nat}
    {existing : List ColumnDescriptor} {rowCount : Nat} {backup : String}
    {s : Sess} {e : String} {s1 : Sess}
    (h : migrate_rest env tbl dims existing rowCount backup s = .error (e, s1)) :
    s1.committed = s.committed
    ∧ ∃ st, isRepopStep st = false ∧ env.fails st = some e := by
  unfold migrate_rest at h
  cases h1 : tryExec env s (Stmt.dropTable tbl) with
  | error p =>
    obtain ⟨e0, s2⟩ := p
    rw [h1] at h
    cases h
    obtain ⟨hf, hs⟩ := tryExec_error_inv h1
    exact ⟨by rw [hs], ⟨Stmt.dropTable tbl, rfl, hf⟩⟩
  | ok sA =>
    rw [h1] at h
    dsimp only at h
    obtain ⟨_, hsA⟩ := tryExec_ok_inv h1
    have hcA : sA.committed = s.committed := by rw [hsA]
    cases h2 : tryExec env sA (Stmt.createTable tbl "embedding" dims) with
    | error p =>
      obtain ⟨e0, s2⟩ := p
      rw [h2] at h
      cases h
      obtain ⟨hf, hs⟩ := tryExec_error_inv h2
      exact ⟨by rw [hs]; exact hcA, ⟨Stmt.createTable tbl "embedding" dims, rfl, hf⟩⟩
    | ok sB =>
      rw [h2] at h
      dsimp only at h
      obtain ⟨_, hsB⟩ := tryExec_ok_inv h2
      have hcB : sB.committed = s.committed := by rw [hsB]; exact hcA
      cases h3 : tryExec env sB (Stmt.createGinIndex tbl) with
      | error p =>
        obtain ⟨e0, s2⟩ := p
        rw [h3] at h
        cases h
        obtain ⟨hf, hs⟩ := tryExec_error_inv h3
        exact ⟨by rw [hs]; exact hcB, ⟨Stmt.createGinIndex tbl, rfl, hf⟩⟩
      | ok sC =>
        rw [h3] at h
        dsimp only at h
        obtain ⟨_, hsC⟩ := tryExec_ok_inv h3
        have hcC : sC.committed = s.committed := by rw [hsC]; exact hcB
        cases h4 : migrateVectorIndex env tbl sC with
        | error p =>
          obtain ⟨e0, s2⟩ := p
          rw [h4] at h
          cases h
          obtain ⟨hc, hf⟩ := migrateVectorIndex_err h4
          exact ⟨by rw [hc]; exact hcC, ⟨Stmt.createHnswIndex tbl, rfl, hf⟩⟩
        | ok sD =>
          rw [h4] at h
          dsimp only at h
          cases h

/-- An error leaving the migration body carries some failing statement's
message, with the commit snapshot untouched. -/
theorem migrate_body_err {env : Env} {tbl : String} {dims : Nat}
    {existing : List ColumnDescriptor} {s : Sess} {e : String} {s1 : Sess}
    (h : migrate_body env tbl dims existing s = .error (e, s1)) :
    s1.committed = s.committed
    ∧ ∃ st, isRepopStep st = false ∧ env.fails st = some e := by
  unfold migrate_body at h
  try dsimp only at h
  cases h1 : tryExec env (doBeginTxn s) (Stmt.selectCount tbl) with
  | error p =>
    obtain ⟨e0, s2⟩ := p
    rw [h1] at h
    cases h
    obtain ⟨hf, hs⟩ := tryExec_error_inv h1
    exact ⟨by rw [hs]; rfl, ⟨Stmt.selectCount tbl, rfl, hf⟩⟩
  | ok sA =>
    rw [h1] at h
    dsimp only at h
    obtain ⟨_, hsA⟩ := tryExec_ok_inv h1
    have hcA : sA.committed = s.committed := by rw [hsA]; rfl
    by_cases hrc : (tableRows sA.db tbl).length > 0
    · rw [if_pos hrc] at h
      cases h2 : tryExec env sA (Stmt.createTableAsSelect (backupName env tbl) tbl) with
      | error p =>
        obtain ⟨e0, s2⟩ := p
        rw [h2] at h
        cases h
        obtain ⟨hf, hs⟩ := tryExec_error_inv h2
        exact ⟨by rw [hs]; exact hcA, ⟨Stmt.createTableAsSelect (backupName env tbl) tbl, rfl, hf⟩⟩
      | ok sB =>
        rw [h2] at h
        dsimp only at h
        obtain ⟨_, hsB⟩ := tryExec_ok_inv h2
        have hcB : sB.committed = s.committed := by rw [hsB]; exact hcA
        obtain ⟨hc, hw⟩ := migrate_rest_err h
        exact ⟨by rw [hc]; exact hcB, hw⟩
    · rw [if_neg hrc] at h
      dsimp only at h
      obtain ⟨hc, hw⟩ := migrate_rest_err h
      exact ⟨by rw [hc]; exact hcA, hw⟩

/-- An error leaving `_migrate_table_schema` is the wrapped
`DatabaseError("Schema migration failed: ...")` around some failing
statement's message, and the session has been rolled back to the commit
snapshot. -/
theorem migrate_table_schema_err {env : Env} {tbl : String} {dims : Nat}
    {existing : List ColumnDescriptor} {s : Sess} {ce : CoreErr} {s1 : Sess}
    (h : migrate_table_schema env tbl dims existing s = .error (ce, s1)) :
    s1.committed = s.committed ∧ s1.db = s.committed
    ∧ ∃ st cause, isRepopStep st = false ∧ env.fails st = some cause
        ∧ ce = CoreErr.app (AppError.databaseError ("Schema migration failed: " ++ cause)) := by
  unfold migrate_table_schema at h
  cases hb : migrate_body env tbl dims existing s with
  | ok s2 => rw [hb] at h; cases h
  | error p =>
    obtain ⟨e0, s2⟩ := p
    rw [hb] at h
    cases h
    obtain ⟨hc, st, hns, hf⟩ := migrate_body_err hb
    refine ⟨by simp [doRollback, hc], by simp [doRollback, hc], st, e0, hns, hf, rfl⟩

/-- Any error leaving the body of `ensure_schema` keeps the commit snapshot
of session start, and its message contains the message of some statement
the oracle failed. -/
theorem ensure_schema_core_err {env : Env} {tbl : String} {s : Sess} {ce : CoreErr} {s1 : Sess}
    (h : ensure_schema_core env tbl s = .error (ce, s1)) :
    s1.committed = s.committed
    ∧ ∃ st cause, env.fails st = some cause ∧ strContains (coreErrMsg ce) cause = true := by
  unfold ensure_schema_core at h
  cases h1 : tryExec env s Stmt.createExtensionVector with
  | error p =>
    obtain ⟨e0, s2⟩ := p
    rw [h1] at h
    cases h
    obtain ⟨hf, hs⟩ := tryExec_error_inv h1
    exact ⟨by rw [hs], ⟨_, e0, hf, strContains_self e0⟩⟩
  | ok sA =>
    rw [h1] at h
    dsimp only at h
    obtain ⟨_, hsA⟩ := tryExec_ok_inv h1
    have hcA : sA.committed = s.committed := by rw [hsA]
    cases h2 : tryExec env sA (Stmt.selectColumns tbl) with
    | error p =>
      obtain ⟨e0, s2⟩ := p
      rw [h2] at h
      cases h
      obtain ⟨hf, hs⟩ := tryExec_error_inv h2
      exact ⟨by rw [hs]; exact hcA, ⟨_, e0, hf, strContains_self e0⟩⟩
    | ok sB =>
      rw [h2] at h
      dsimp only at h
      obtain ⟨_, hsB⟩ := tryExec_ok_inv h2
      have hcB : sB.committed = s.committed := by rw [hsB]; exact hcA
      cases hemp : (tableColumns sB.db tbl).isEmpty with
      | true =>
        rw [hemp, if_pos rfl] at h
        cases hfc : fresh_create env tbl sB with
        | error p =>
          obtain ⟨e0, s2⟩ := p
          rw [hfc] at h
          cases h
          obtain ⟨hc, st, hf⟩ := fresh_create_err hfc
          exact ⟨by rw [hc]; exact hcB, ⟨st, e0, hf, strContains_self e0⟩⟩
        | ok s2 => rw [hfc] at h; cases h
      | false =>
        rw [hemp, if_neg (by simp)] at h
        try dsimp only at h
        cases h3 : tryExec env sB (Stmt.selectTextIndex tbl) with
        | error p =>
          obtain ⟨e0, s2⟩ := p
          rw [h3] at h
          cases h
          obtain ⟨hf, hs⟩ := tryExec_error_inv h3
          exact ⟨by rw [hs]; exact hcB, ⟨_, e0, hf, strContains_self e0⟩⟩
        | ok sC =>
          rw [h3] at h
          dsimp only at h
          obtain ⟨_, hsC⟩ := tryExec_ok_inv h3
          have hcC : sC.committed = s.committed := by rw [hsC]; exact hcB
          cases h4 : tryExec env sC (Stmt.selectVectorIndex tbl) with
          | error p =>
            obtain ⟨e0, s2⟩ := p
            rw [h4] at h
            cases h
            obtain ⟨hf, hs⟩ := tryExec_error_inv h4
            exact ⟨by rw [hs]; exact hcC, ⟨_, e0, hf, strContains_self e0⟩⟩
          | ok sD =>
            rw [h4] at h
            dsimp only at h
            obtain ⟨_, hsD⟩ := tryExec_ok_inv h4
            have hcD : sD.committed = s.committed := by rw [hsD]; exact hcC
            cases hnm : needs_migration (tableColumns sB.db tbl) with
            | true =>
              rw [hnm, if_pos rfl] at h
              cases hauto : env.autoMigrate with
              | true =>
                rw [hauto, if_pos rfl] at h
                cases hm : migrate_table_schema env tbl env.dims (tableColumns sB.db tbl) sD with
                | error p =>
                  obtain ⟨ce0, s2⟩ := p
                  rw [hm] at h
                  cases h
                  obtain ⟨hc, _, st, cause, _, hf, hce⟩ := migrate_table_schema_err hm
                  refine ⟨by rw [hc]; exact hcD, ⟨st, cause, hf, ?_⟩⟩
                  rw [hce]
                  exact strContains_prepend _ (strContains_self cause)
                | ok s2 => rw [hm] at h; cases h
              | false =>
                rw [hauto, if_neg (by simp)] at h
                cases h
            | false =>
              rw [hnm, if_neg (by simp)] at h
              cases hni : needs_index_update (hasTextIndex sC.db tbl) (hasVectorIndex sD.db tbl) with
              | true =>
                rw [hni, if_pos rfl] at h
                cases hr : repair_indexes env tbl (hasTextIndex sC.db tbl) (hasVectorIndex sD.db tbl) sD with
                | error p =>
                  obtain ⟨e0, s2⟩ := p
                  rw [hr] at h
                  cases h
                  obtain ⟨hc, st, hf⟩ := repair_indexes_err hr
                  exact ⟨by rw [hc]; exact hcD, ⟨st, e0, hf, strContains_self e0⟩⟩
                | ok s2 => rw [hr] at h; cases h
              | false =>
                rw [hni, if_neg (by simp)] at h
                cases h

/-- C3: when a destructive migration fails (any structural step — drop,
recreate, or a fatal index attempt — or any other statement of the
invocation), the transaction is rolled back so the database, in particular
the original table, is exactly as it was before the call, and the caller
receives a `DatabaseError` whose message contains the underlying cause (the
failing statement's error message). -/
theorem migration_failure_rolls_back_and_reports (env : Env) (tbl : String) (db : DB)
    (e : AppError)
    (hmig : env.autoMigrate = true)
    (hmis : classifyDb db tbl = ReconciliationDecision.SchemaMismatch)
    (herr : (runEnsure env tbl db).err = some e) :
    (runEnsure env tbl db).sess.db = db
    ∧ ∃ m, e = AppError.databaseError m
        ∧ ∃ st cause, env.fails st = some cause ∧ strContains m cause = true := by
  unfold runEnsure ensure_schema at herr ⊢
  cases hcore : ensure_schema_core env tbl ⟨db, db, []⟩ with
  | ok s1 => rw [hcore] at herr; cases herr
  | error p =>
    obtain ⟨ce, s1⟩ := p
    obtain ⟨hc, st, cause, hf, hcont⟩ := ensure_schema_core_err hcore
    cases ce with
    | pg m =>
      rw [hcore] at herr
      dsimp only at herr
      dsimp only
      refine ⟨by simp [closeConn, hc], ?_⟩
      cases herr
      exact ⟨_, rfl, st, cause, hf, strContains_prepend _ hcont⟩
    | app ea =>
      rw [hcore] at herr
      dsimp only at herr
      dsimp only
      refine ⟨by simp [closeConn, hc], ?_⟩
      cases herr
      exact ⟨_, rfl, st, cause, hf, strContains_prepend _ hcont⟩

/-- Witness for C3: migration permitted on a mismatched table, drop fails. -/
theorem migration_failure_rolls_back_and_reports_witness :
    (runEnsure envMigDropFail "t" dbBad).sess.db = dbBad
    ∧ ∃ m, AppError.databaseError
          "Unexpected error while creating schema: Schema migration failed: ERROR: disk full"
        = AppError.databaseError m
        ∧ ∃ st cause, envMigDropFail.fails st = some cause ∧ strContains m cause = true :=
  migration_failure_rolls_back_and_reports envMigDropFail "t" dbBad
    (AppError.databaseError
      "Unexpected error while creating schema: Schema migration failed: ERROR: disk full")
    rfl (by decide) (by decide)

/-- C9: for every event and environment, `lambda_handler` returns a
`{status, message}` record with status `success` or `error`; it succeeds
exactly when no step failed, and every internal failure is converted into
status `error` with the failing step's exception rendered (class prefix
plus its message) in the message field — nothing is raised past the
boundary, which in this embedding is the totality of `lambda_handler`. -/
theorem lambda_handler_never_raises (w : LambdaWorld) :
    ((lambda_handler w).status = "success" ∨ (lambda_handler w).status = "error")
    ∧ ((lambda_handler w).status = "success" ↔ firstFailure w = none)
    ∧ (∀ e, firstFailure w = some e →
        lambda_handler w = { status := "error", message := renderError e }) := by
  unfold lambda_handler firstFailure
  cases hv : validate_event w.event with
  | error e0 => simp
  | ok tbl =>
    cases hc : w.configErr with
    | some e0 => simp
    | none =>
    cases hs : w.secretErr with
    | some e0 => simp
    | none =>
    cases hd : w.ensureDbErr with
    | some e0 => simp
    | none =>
    cases he : (runEnsure w.env tbl w.db).err with
    | some e0 => simp [he]
    | none => simp [he]

/-- Witness for C9, exercising the success case and a failing step. -/
theorem lambda_handler_never_raises_witness :
    (((lambda_handler wOk).status = "success" ∨ (lambda_handler wOk).status = "error")
      ∧ (lambda_handler wOk).status = "success")
    ∧ lambda_handler wBadConfig
        = { status := "error",
            message := renderError (AppError.configurationError "Config failed") } :=
  ⟨⟨(lambda_handler_never_raises wOk).1,
    (lambda_handler_never_raises wOk).2.1.mpr rfl⟩,
   (lambda_handler_never_raises wBadConfig).2.2
     (AppError.configurationError "Config failed") rfl⟩

/-- Filtering out entries named `t` does not change a lookup of `n ≠ t`. -/
theorem find?_name_filter (l : List (String × Table)) (t n : String) (hne : ¬ n = t) :
    (l.filter (fun p => p.1 != t)).find? (fun p => p.1 == n) = l.find? (fun p => p.1 == n) := by
  induction l with
  | nil => rfl
  | cons x xs ih =>
    by_cases hx : x.1 = t
    · have htn : (t == n) = false := by
        simp only [beq_eq_false_iff_ne]
        intro hh
        exact hne hh.symm
      have hxn : (x.1 == n) = false := by rw [hx]; exact htn
      simp [List.filter_cons, hx, List.find?_cons, hxn, htn, ih]
    · by_cases hxn : x.1 = n
      · simp [List.filter_cons, hx, List.find?_cons, hxn, hne, ih]
      · simp [List.filter_cons, hx, List.find?_cons, hxn, hne, ih]

/-- Lookup of the just-installed table. -/
theorem lookupTable_setTable_self (db : DB) (t : String) (tb : Table) :
    lookupTable (setTable db t tb) t = some tb := by
  unfold lookupTable setTable
  dsimp only
  rw [List.find?_append]
  have h1 : (db.tables.filter (fun p => p.1 != t)).find? (fun p => p.1 == t) = none := by
    apply List.find?_eq_none.mpr
    intro x hx
    have hq := List.of_mem_filter hx
    simp only [bne] at hq
    simp only [Bool.not_eq_true'] at hq
    simp [hq]
  rw [h1]
  simp

/-- Installing a table does not change a lookup under another name. -/
theorem lookupTable_setTable_other (db : DB) (t n : String) (tb : Table) (hne : ¬ n = t) :
    lookupTable (setTable db t tb) n = lookupTable db n := by
  unfold lookupTable setTable
  dsimp only
  rw [List.find?_append, find?_name_filter _ _ _ hne]
  have h2 : ([(t, tb)].find? (fun p => p.1 == n)) = none := by
    simp
    intro hh
    exact hne hh.symm
  rw [h2]
  cases db.tables.find? (fun p => p.1 == n) <;> rfl

/-- Index creation never changes the table list. -/
@[simp] theorem tables_addIndexIfAbsent (db : DB) (i : IndexDef) :
    (addIndexIfAbsent db i).tables = db.tables := by
  unfold addIndexIfAbsent
  split <;> rfl

/-- Index creation never changes any table lookup. -/
@[simp] theorem lookupTable_addIndexIfAbsent (db : DB) (i : IndexDef) (n : String) :
    lookupTable (addIndexIfAbsent db i) n = lookupTable db n := by
  unfold lookupTable
  rw [tables_addIndexIfAbsent]

/-- Dropping table `t` does not change a lookup of `n ≠ t`. -/
theorem lookupTable_drop_other (db : DB) (t n : String) (hne : ¬ n = t) :
    lookupTable (stmtEffect (Stmt.dropTable t) db) n = lookupTable db n := by
  unfold stmtEffect lookupTable
  dsimp only
  rw [find?_name_filter _ _ _ hne]

/-- The backup name is never the table's own name. -/
theorem backupName_ne (env : Env) (tbl : String) : ¬ backupName env tbl = tbl := by
  intro h
  have hlen := congrArg String.length h
  rw [backupName] at hlen
  rw [String.length_append, String.length_append] at hlen
  have h8 : ("_backup_" : String).length = 8 := rfl
  rw [h8] at hlen
  omega

/-- Successful vector-index provisioning during migration touches no table
and only appends to the trace. -/
theorem migrateVectorIndex_ok_inv {env : Env} {tbl : String} {s s1 : Sess}
    (h : migrateVectorIndex env tbl s = .ok s1) :
    s1.db.tables = s.db.tables ∧ ∃ l, s1.trace = s.trace ++ l := by
  unfold migrateVectorIndex at h
  cases hr : tryExec env s (Stmt.createHnswIndex tbl) with
  | ok s2 =>
    rw [hr] at h
    cases h
    obtain ⟨_, hs⟩ := tryExec_ok_inv hr
    rw [hs]
    exact ⟨by simp [stmtEffect], ⟨_, rfl⟩⟩
  | error p =>
    obtain ⟨e0, s2⟩ := p
    obtain ⟨_, hs2⟩ := tryExec_error_inv hr
    rw [hr] at h
    dsimp only at h
    cases hcap : isCapabilityError e0 with
    | false =>
      rw [hcap, if_neg (by simp)] at h
      cases h
    | true =>
      rw [hcap, if_pos rfl] at h
      cases hivf : tryExec env s2 (Stmt.createIvfflatIndex tbl) with
      | ok s3 =>
        rw [hivf] at h
        cases h
        obtain ⟨_, hs3⟩ := tryExec_ok_inv hivf
        rw [hs3, hs2]
        exact ⟨by simp [stmtEffect], ⟨_, by rw [List.append_assoc]⟩⟩
      | error q =>
        obtain ⟨e1, s3⟩ := q
        rw [hivf] at h
        cases h
        obtain ⟨_, hs3⟩ := tryExec_error_inv hivf
        rw [hs3, hs2]
        exact ⟨rfl, ⟨_, by rw [List.append_assoc]⟩⟩

/-- Re-populating `dst` does not change a lookup under another name. -/
theorem lookupTable_insertTM_other (db : DB) (dst src n : String) (hne : ¬ n = dst) :
    lookupTable (stmtEffect (Stmt.insertTextMetadata dst src) db) n = lookupTable db n := by
  unfold stmtEffect
  cases h1 : lookupTable db src <;> cases h2 : lookupTable db dst <;>
    simp [h1, h2, lookupTable_setTable_other _ _ _ _ hne]

/-- Re-populating `dst` (text only) does not change a lookup under another
name. -/
theorem lookupTable_insertTO_other (db : DB) (dst src n : String) (hne : ¬ n = dst) :
    lookupTable (stmtEffect (Stmt.insertTextOnly dst src) db) n = lookupTable db n := by
  unfold stmtEffect
  cases h1 : lookupTable db src <;> cases h2 : lookupTable db dst <;>
    simp [h1, h2, lookupTable_setTable_other _ _ _ _ hne]

/-- A list with a known tail shape keeps it under further appends. -/
theorem trace_tail_extend {t a : List Stmt} {x : Stmt}
    (h : ∃ l, t = a ++ x :: l) (l1 : List Stmt) : ∃ l, t ++ l1 = a ++ x :: l := by
  obtain ⟨l0, hl⟩ := h
  exact ⟨l0 ++ l1, by rw [hl]; simp⟩

/-- A successfully committed `migrate_rest` preserves the backup table (the
backup name differing from the table's) and its trace starts with the drop
of the original. -/
theorem migrate_rest_ok_inv {env : Env} {tbl : String} {dims : Nat}
    {existing : List ColumnDescriptor} {rowCount : Nat} {backup : String} {s s1 : Sess}
    (hbne : ¬ backup = tbl)
    (h : migrate_rest env tbl dims existing rowCount backup s = .ok s1) :
    lookupTable s1.db backup = lookupTable s.db backup
    ∧ ∃ l, s1.trace = s.trace ++ (Stmt.dropTable tbl :: l) := by
  unfold migrate_rest at h
  cases h1 : tryExec env s (Stmt.dropTable tbl) with
  | error p => rw [h1] at h; cases h
  | ok sA =>
    rw [h1] at h
    dsimp only at h
    obtain ⟨_, hsA⟩ := tryExec_ok_inv h1
    have hlkA : lookupTable sA.db backup = lookupTable s.db backup := by
      rw [hsA]
      exact lookupTable_drop_other _ _ _ hbne
    have htrA : ∃ l, sA.trace = s.trace ++ Stmt.dropTable tbl :: l := by
      rw [hsA]
      exact ⟨[], rfl⟩
    cases h2 : tryExec env sA (Stmt.createTable tbl "embedding" dims) with
    | error p => rw [h2] at h; cases h
    | ok sB =>
      rw [h2] at h
      dsimp only at h
      obtain ⟨_, hsB⟩ := tryExec_ok_inv h2
      have hlkB : lookupTable sB.db backup = lookupTable s.db backup := by
        rw [hsB]
        dsimp only [stmtEffect]
        rw [lookupTable_setTable_other _ _ _ _ hbne]
        exact hlkA
      have htrB : ∃ l, sB.trace = s.trace ++ Stmt.dropTable tbl :: l := by
        rw [hsB]
        exact trace_tail_extend htrA _
      cases h3 : tryExec env sB (Stmt.createGinIndex tbl) with
      | error p => rw [h3] at h; cases h
      | ok sC =>
        rw [h3] at h
        dsimp only at h
        obtain ⟨_, hsC⟩ := tryExec_ok_inv h3
        have hlkC : lookupTable sC.db backup = lookupTable s.db backup := by
          rw [hsC]
          dsimp only [stmtEffect]
          rw [lookupTable_addIndexIfAbsent]
          exact hlkB
        have htrC : ∃ l, sC.trace = s.trace ++ Stmt.dropTable tbl :: l := by
          rw [hsC]
          exact trace_tail_extend htrB _
        cases h4 : migrateVectorIndex env tbl sC with
        | error p => rw [h4] at h; cases h
        | ok sD =>
          rw [h4] at h
          dsimp only at h
          obtain ⟨htabD, lD, htrD0⟩ := migrateVectorIndex_ok_inv h4
          have hlkD : lookupTable sD.db backup = lookupTable s.db backup := by
            unfold lookupTable at hlkC ⊢
            rw [htabD]
            exact hlkC
          have htrD : ∃ l, sD.trace = s.trace ++ Stmt.dropTable tbl :: l := by
            rw [htrD0]
            exact trace_tail_extend htrC _
          cases h
          by_cases hrc : rowCount > 0
          · rw [if_pos hrc]
            by_cases hct : (colLookup existing "text").isSome
            · rw [if_pos hct]
              by_cases hcm : (colLookup existing "metadata").isSome
              · rw [if_pos hcm]
                cases h5 : tryExec env sD (Stmt.insertTextMetadata tbl backup) with
                | ok sE =>
                  obtain ⟨_, hsE⟩ := tryExec_ok_inv h5
                  dsimp only [sessOf, doCommit]
                  constructor
                  · rw [hsE]
                    dsimp only
                    rw [lookupTable_insertTM_other _ _ _ _ hbne]
                    exact hlkD
                  · rw [hsE]
                    dsimp only
                    exact trace_tail_extend (trace_tail_extend htrD _) _
                | error q =>
                  obtain ⟨e5, sE⟩ := q
                  obtain ⟨_, hsE⟩ := tryExec_error_inv h5
                  dsimp only [sessOf, doCommit]
                  constructor
                  · rw [hsE]
                    exact hlkD
                  · rw [hsE]
                    dsimp only
                    exact trace_tail_extend (trace_tail_extend htrD _) _
              · rw [if_neg hcm]
                cases h5 : tryExec env sD (Stmt.insertTextOnly tbl backup) with
                | ok sE =>
                  obtain ⟨_, hsE⟩ := tryExec_ok_inv h5
                  dsimp only [sessOf, doCommit]
                  constructor
                  · rw [hsE]
                    dsimp only
                    rw [lookupTable_insertTO_other _ _ _ _ hbne]
                    exact hlkD
                  · rw [hsE]
                    dsimp only
                    exact trace_tail_extend (trace_tail_extend htrD _) _
                | error q =>
                  obtain ⟨e5, sE⟩ := q
                  obtain ⟨_, hsE⟩ := tryExec_error_inv h5
                  dsimp only [sessOf, doCommit]
                  constructor
                  · rw [hsE]
                    exact hlkD
                  · rw [hsE]
                    dsimp only
                    exact trace_tail_extend (trace_tail_extend htrD _) _
            · rw [if_neg hct]
              dsimp only [doCommit]
              exact ⟨hlkD, trace_tail_extend htrD _⟩
          · rw [if_neg hrc]
            dsimp only [doCommit]
            exact ⟨hlkD, trace_tail_extend htrD _⟩

/-- A successful `_migrate_table_schema` on a non-empty table leaves a
backup table equal to the original table, created before the drop. -/
theorem migrate_table_schema_ok_inv {env : Env} {tbl : String} {dims : Nat}
    {existing : List ColumnDescriptor} {s : Sess} {s1 : Sess}
    (hrows : 0 < (tableRows s.db tbl).length)
    (h : migrate_table_schema env tbl dims existing s = .ok s1) :
    lookupTable s1.db (backupName env tbl) = lookupTable s.db tbl
    ∧ ∃ l, s1.trace = s.trace ++ (Stmt.beginTxn :: Stmt.selectCount tbl ::
        Stmt.createTableAsSelect (backupName env tbl) tbl :: Stmt.dropTable tbl :: l) := by
  have hex : ∃ tb0, lookupTable s.db tbl = some tb0 := by
    cases hl : lookupTable s.db tbl with
    | some tb0 => exact ⟨tb0, rfl⟩
    | none =>
      unfold tableRows at hrows
      rw [hl] at hrows
      simp at hrows
  obtain ⟨tb0, htb0⟩ := hex
  unfold migrate_table_schema at h
  cases hb : migrate_body env tbl dims existing s with
  | error p =>
    obtain ⟨e0, s2⟩ := p
    rw [hb] at h
    cases h
  | ok s2 =>
    rw [hb] at h
    cases h
    unfold migrate_body at hb
    try dsimp only at hb
    cases h1 : tryExec env (doBeginTxn s) (Stmt.selectCount tbl) with
    | error p => rw [h1] at hb; cases hb
    | ok sA =>
      rw [h1] at hb
      dsimp only at hb
      obtain ⟨_, hsA⟩ := tryExec_ok_inv h1
      have hdbA : sA.db = s.db := by rw [hsA]; rfl
      have hrcA : (tableRows sA.db tbl).length > 0 := by rw [hdbA]; exact hrows
      rw [if_pos hrcA] at hb
      cases h2 : tryExec env sA (Stmt.createTableAsSelect (backupName env tbl) tbl) with
      | error p => rw [h2] at hb; cases hb
      | ok sB =>
        rw [h2] at hb
        dsimp only at hb
        obtain ⟨_, hsB⟩ := tryExec_ok_inv h2
        have hlkB : lookupTable sB.db (backupName env tbl) = some tb0 := by
          rw [hsB]
          dsimp only [stmtEffect]
          rw [hdbA, htb0]
          exact lookupTable_setTable_self _ _ _
        have htrB : sB.trace = s.trace ++ [Stmt.beginTxn, Stmt.selectCount tbl,
            Stmt.createTableAsSelect (backupName env tbl) tbl] := by
          rw [hsB]
          dsimp only
          rw [hsA]
          dsimp only [doBeginTxn]
          simp
        obtain ⟨hlk1, l1, htr1⟩ := migrate_rest_ok_inv (backupName_ne env tbl) hb
        constructor
        · rw [hlk1, hlkB, htb0]
        · refine ⟨l1, ?_⟩
          rw [htr1, htrB]
          simp

/-- C4 (amended): for every destructive migration that commits, with
pre-migration row count at least 1, the backup table named from the
original name plus the time-based suffix holds exactly the original table
(columns and rows), and the backup-copy statement precedes the drop of the
original in the trace. -/
theorem backup_exists_after_committed_migration (env : Env) (tbl : String) (db : DB)
    (hmig : env.autoMigrate = true)
    (hmis : classifyDb db tbl = ReconciliationDecision.SchemaMismatch)
    (hrows : 1 ≤ (tableRows db tbl).length)
    (hok : (runEnsure env tbl db).err = none) :
    lookupTable (runEnsure env tbl db).sess.db (backupName env tbl) = lookupTable db tbl
    ∧ stepPrecedes (runEnsure env tbl db).sess.trace isBackupStep isDropStep := by
  obtain ⟨he, hnm⟩ := mismatch_elim hmis
  have hne : tableColumns db tbl ≠ [] := by
    intro hc
    rw [hc] at he
    simp at he
  cases hf1 : env.fails Stmt.createExtensionVector with
  | some e1 => simp [runEnsure, ensure_schema, ensure_schema_core, tryExec, hf1] at hok
  | none =>
  cases hf2 : env.fails (Stmt.selectColumns tbl) with
  | some e2 =>
    simp [runEnsure, ensure_schema, ensure_schema_core, tryExec, hf1, hf2, stmtEffect] at hok
  | none =>
  cases hf3 : env.fails (Stmt.selectTextIndex tbl) with
  | some e3 =>
    simp [runEnsure, ensure_schema, ensure_schema_core, tryExec, hf1, hf2, hf3, stmtEffect,
      hne, hnm] at hok
  | none =>
  cases hf4 : env.fails (Stmt.selectVectorIndex tbl) with
  | some e4 =>
    simp [runEnsure, ensure_schema, ensure_schema_core, tryExec, hf1, hf2, hf3, hf4, stmtEffect,
      hne, hnm] at hok
  | none =>
    simp only [runEnsure, ensure_schema, ensure_schema_core, tryExec, hf1, hf2, hf3, hf4,
      stmtEffect, hmig, tableColumns_extFlag, hasTextIndex_extFlag, hasVectorIndex_extFlag,
      tableRows_extFlag, he, hnm, Bool.false_eq_true, if_false, if_true, eq_self_iff_true,
      List.nil_append] at hok ⊢
    cases hm : migrate_table_schema env tbl env.dims (tableColumns db tbl)
        { db := { tables := db.tables, indexes := db.indexes, vectorExtension := true },
          committed := db,
          trace := [Stmt.createExtensionVector] ++ [Stmt.selectColumns tbl]
            ++ [Stmt.selectTextIndex tbl] ++ [Stmt.selectVectorIndex tbl] } with
    | error p =>
      obtain ⟨ce, s2⟩ := p
      rw [hm] at hok
      cases ce <;> simp at hok
    | ok s5 =>
      dsimp only [closeConn, doCommit]
      have hinv := migrate_table_schema_ok_inv (by simpa using hrows) hm
      obtain ⟨hlk, l, htr⟩ := hinv
      constructor
      · rw [hlk]
        simp
      · rw [htr]
        dsimp only
        simp [stepPrecedes, firstSatisfying, isBackupStep, isDropStep]

/-- Witness for C4 (amended): full migration of a one-row table succeeds
and leaves the backup. -/
theorem backup_exists_after_committed_migration_witness :
    lookupTable (runEnsure envMig "t" dbBad).sess.db (backupName envMig "t")
        = lookupTable dbBad "t"
    ∧ stepPrecedes (runEnsure envMig "t" dbBad).sess.trace isBackupStep isDropStep :=
  backup_exists_after_committed_migration envMig "t" dbBad rfl (by decide) (by decide) (by decide)

/-- Successful vector-index provisioning during migration adds no statement
counted by a predicate that ignores both index-creation attempts. -/
theorem migrateVectorIndex_ok_counts {env : Env} {tbl : String} {s s1 : Sess}
    (h : migrateVectorIndex env tbl s = .ok s1) (p : Stmt → Bool)
    (hp1 : p (Stmt.createHnswIndex tbl) = false)
    (hp2 : p (Stmt.createIvfflatIndex tbl) = false) :
    s1.trace.countP p = s.trace.countP p := by
  unfold migrateVectorIndex at h
  cases hr : tryExec env s (Stmt.createHnswIndex tbl) with
  | ok s2 =>
    rw [hr] at h
    cases h
    obtain ⟨_, hs⟩ := tryExec_ok_inv hr
    rw [hs]
    simp [List.countP_append, List.countP_cons, hp1]
  | error p0 =>
    obtain ⟨e0, s2⟩ := p0
    obtain ⟨_, hs2⟩ := tryExec_error_inv hr
    rw [hr] at h
    dsimp only at h
    cases hcap : isCapabilityError e0 with
    | false =>
      rw [hcap, if_neg (by simp)] at h
      cases h
    | true =>
      rw [hcap, if_pos rfl] at h
      cases hivf : tryExec env s2 (Stmt.createIvfflatIndex tbl) with
      | ok s3 =>
        rw [hivf] at h
        cases h
        obtain ⟨_, hs3⟩ := tryExec_ok_inv hivf
        rw [hs3, hs2]
        simp [List.countP_append, List.countP_cons, hp1, hp2]
      | error q =>
        obtain ⟨e1, s3⟩ := q
        rw [hivf] at h
        cases h
        obtain ⟨_, hs3⟩ := tryExec_error_inv hivf
        rw [hs3, hs2]
        simp [List.countP_append, List.countP_cons, hp1, hp2]

/-- The re-population policy of a committed `migrate_rest` on a non-empty
table: text+metadata copied together when both existed, text alone when
only text existed, nothing when text was absent; and every row of the
recreated table has no embedding value. -/
theorem migrate_rest_repop {env : Env} {tbl : String} {dims : Nat}
    {existing : List ColumnDescriptor} {rowCount : Nat} {backup : String} {s s1 : Sess}
    (hbne : ¬ backup = tbl) (hrc : 0 < rowCount)
    (h : migrate_rest env tbl dims existing rowCount backup s = .ok s1) :
    ((colLookup existing "text").isSome = true → (colLookup existing "metadata").isSome = true →
        s1.trace.countP isInsertTM = s.trace.countP isInsertTM + 1
        ∧ s1.trace.countP isInsertTextOnly = s.trace.countP isInsertTextOnly)
    ∧ ((colLookup existing "text").isSome = true → (colLookup existing "metadata").isSome = false →
        s1.trace.countP isInsertTextOnly = s.trace.countP isInsertTextOnly + 1
        ∧ s1.trace.countP isInsertTM = s.trace.countP isInsertTM)
    ∧ ((colLookup existing "text").isSome = false →
        s1.trace.countP isRepopStep = s.trace.countP isRepopStep)
    ∧ (∀ r ∈ tableRows s1.db tbl, r.embedding = none) := by
  unfold migrate_rest at h
  cases h1 : tryExec env s (Stmt.dropTable tbl) with
  | error p => rw [h1] at h; cases h
  | ok sA =>
    rw [h1] at h
    dsimp only at h
    obtain ⟨_, hsA⟩ := tryExec_ok_inv h1
    cases h2 : tryExec env sA (Stmt.createTable tbl "embedding" dims) with
    | error p => rw [h2] at h; cases h
    | ok sB =>
      rw [h2] at h
      dsimp only at h
      obtain ⟨_, hsB⟩ := tryExec_ok_inv h2
      have hlkB : lookupTable sB.db tbl = some ⟨newSchemaColumns "embedding", []⟩ := by
        rw [hsB]
        dsimp only [stmtEffect]
        exact lookupTable_setTable_self _ _ _
      have hcntB : ∀ p : Stmt → Bool, p (Stmt.dropTable tbl) = false →
          p (Stmt.createTable tbl "embedding" dims) = false →
          sB.trace.countP p = s.trace.countP p := by
        intro p hq1 hq2
        rw [hsB]
        dsimp only
        rw [hsA]
        dsimp only
        simp [List.countP_append, List.countP_cons, hq1, hq2]
      cases h3 : tryExec env sB (Stmt.createGinIndex tbl) with
      | error p => rw [h3] at h; cases h
      | ok sC =>
        rw [h3] at h
        dsimp only at h
        obtain ⟨_, hsC⟩ := tryExec_ok_inv h3
        have hlkC : lookupTable sC.db tbl = some ⟨newSchemaColumns "embedding", []⟩ := by
          rw [hsC]
          dsimp only [stmtEffect]
          rw [lookupTable_addIndexIfAbsent]
          exact hlkB
        have hcntC : ∀ p : Stmt → Bool, p (Stmt.dropTable tbl) = false →
            p (Stmt.createTable tbl "embedding" dims) = false →
            p (Stmt.createGinIndex tbl) = false →
            sC.trace.countP p = s.trace.countP p := by
          intro p hq1 hq2 hq3
          rw [hsC]
          dsimp only
          rw [List.countP_append, hcntB p hq1 hq2]
          simp [List.countP_cons, hq3]
        cases h4 : migrateVectorIndex env tbl sC with
        | error p => rw [h4] at h; cases h
        | ok sD =>
          rw [h4] at h
          dsimp only at h
          obtain ⟨htabD, _, _⟩ := migrateVectorIndex_ok_inv h4
          have hlkD : lookupTable sD.db tbl = some ⟨newSchemaColumns "embedding", []⟩ := by
            unfold lookupTable at hlkC ⊢
            rw [htabD]
            exact hlkC
          have hcntD : ∀ p : Stmt → Bool, p (Stmt.dropTable tbl) = false →
              p (Stmt.createTable tbl "embedding" dims) = false →
              p (Stmt.createGinIndex tbl) = false →
              p (Stmt.createHnswIndex tbl) = false →
              p (Stmt.createIvfflatIndex tbl) = false →
              sD.trace.countP p = s.trace.countP p := by
            intro p hq1 hq2 hq3 hq4 hq5
            rw [migrateVectorIndex_ok_counts h4 p hq4 hq5]
            exact hcntC p hq1 hq2 hq3
          cases h
          rw [if_pos hrc]
          by_cases hct : (colLookup existing "text").isSome = true
          · rw [if_pos hct]
            by_cases hcm : (colLookup existing "metadata").isSome = true
            · rw [if_pos hcm]
              cases h5 : tryExec env sD (Stmt.insertTextMetadata tbl backup) with
              | ok sE =>
                obtain ⟨_, hsE⟩ := tryExec_ok_inv h5
                dsimp only [sessOf, doCommit]
                refine ⟨fun _ _ => ⟨?_, ?_⟩,
                  fun _ hcm2 => absurd hcm (by rw [hcm2]; simp),
                  fun hct2 => absurd hct (by rw [hct2]; simp), ?_⟩
                · rw [hsE]
                  dsimp only
                  rw [List.countP_append, List.countP_append,
                    hcntD isInsertTM rfl rfl rfl rfl rfl]
                  simp [List.countP_cons, isInsertTM]
                · rw [hsE]
                  dsimp only
                  rw [List.countP_append, List.countP_append,
                    hcntD isInsertTextOnly rfl rfl rfl rfl rfl]
                  simp [List.countP_cons, isInsertTextOnly]
                · intro r hr
                  rw [hsE] at hr
                  dsimp only [stmtEffect] at hr
                  rw [hlkD] at hr
                  cases hl1 : lookupTable sD.db backup with
                  | none =>
                    rw [hl1] at hr
                    dsimp only at hr
                    unfold tableRows at hr
                    rw [hlkD] at hr
                    simp at hr
                  | some tsrc =>
                    rw [hl1] at hr
                    dsimp only at hr
                    unfold tableRows at hr
                    rw [lookupTable_setTable_self] at hr
                    simp at hr
                    obtain ⟨r0, _, hr0⟩ := hr
                    rw [← hr0]
              | error q =>
                obtain ⟨e5, sE⟩ := q
                obtain ⟨_, hsE⟩ := tryExec_error_inv h5
                dsimp only [sessOf, doCommit]
                refine ⟨fun _ _ => ⟨?_, ?_⟩,
                  fun _ hcm2 => absurd hcm (by rw [hcm2]; simp),
                  fun hct2 => absurd hct (by rw [hct2]; simp), ?_⟩
                · rw [hsE]
                  dsimp only
                  rw [List.countP_append, List.countP_append,
                    hcntD isInsertTM rfl rfl rfl rfl rfl]
                  simp [List.countP_cons, isInsertTM]
                · rw [hsE]
                  dsimp only
                  rw [List.countP_append, List.countP_append,
                    hcntD isInsertTextOnly rfl rfl rfl rfl rfl]
                  simp [List.countP_cons, isInsertTextOnly]
                · intro r hr
                  rw [hsE] at hr
                  dsimp only at hr
                  unfold tableRows at hr
                  rw [hlkD] at hr
                  simp at hr
            · rw [if_neg hcm]
              cases h5 : tryExec env sD (Stmt.insertTextOnly tbl backup) with
              | ok sE =>
                obtain ⟨_, hsE⟩ := tryExec_ok_inv h5
                dsimp only [sessOf, doCommit]
                refine ⟨fun _ hcm2 => absurd hcm2 hcm, fun _ _ => ⟨?_, ?_⟩,
                  fun hct2 => absurd hct (by rw [hct2]; simp), ?_⟩
                · rw [hsE]
                  dsimp only
                  rw [List.countP_append, List.countP_append,
                    hcntD isInsertTextOnly rfl rfl rfl rfl rfl]
                  simp [List.countP_cons, isInsertTextOnly]
                · rw [hsE]
                  dsimp only
                  rw [List.countP_append, List.countP_append,
                    hcntD isInsertTM rfl rfl rfl rfl rfl]
                  simp [List.countP_cons, isInsertTM]
                · intro r hr
                  rw [hsE] at hr
                  dsimp only [stmtEffect] at hr
                  rw [hlkD] at hr
                  cases hl1 : lookupTable sD.db backup with
                  | none =>
                    rw [hl1] at hr
                    dsimp only at hr
                    unfold tableRows at hr
                    rw [hlkD] at hr
                    simp at hr
                  | some tsrc =>
                    rw [hl1] at hr
                    dsimp only at hr
                    unfold tableRows at hr
                    rw [lookupTable_setTable_self] at hr
                    simp at hr
                    obtain ⟨r0, _, hr0⟩ := hr
                    rw [← hr0]
              | error q =>
                obtain ⟨e5, sE⟩ := q
                obtain ⟨_, hsE⟩ := tryExec_error_inv h5
                dsimp only [sessOf, doCommit]
                refine ⟨fun _ hcm2 => absurd hcm2 hcm, fun _ _ => ⟨?_, ?_⟩,
                  fun hct2 => absurd hct (by rw [hct2]; simp), ?_⟩
                · rw [hsE]
                  dsimp only
                  rw [List.countP_append, List.countP_append,
                    hcntD isInsertTextOnly rfl rfl rfl rfl rfl]
                  simp [List.countP_cons, isInsertTextOnly]
                · rw [hsE]
                  dsimp only
                  rw [List.countP_append, List.countP_append,
                    hcntD isInsertTM rfl rfl rfl rfl rfl]
                  simp [List.countP_cons, isInsertTM]
                · intro r hr
                  rw [hsE] at hr
                  dsimp only at hr
                  unfold tableRows at hr
                  rw [hlkD] at hr
                  simp at hr
          · rw [if_neg hct]
            dsimp only [doCommit]
            refine ⟨fun hct2 _ => absurd hct2 hct, fun hct2 _ => absurd hct2 hct, fun _ => ?_, ?_⟩
            · rw [List.countP_append, hcntD isRepopStep rfl rfl rfl rfl rfl]
              simp [List.countP_cons, isRepopStep]
            · intro r hr
              unfold tableRows at hr
              rw [hlkD] at hr
              simp at hr

/-- Every committed `migrate_rest` has a `COMMIT;` in its trace. -/
theorem migrate_rest_ok_commit {env : Env} {tbl : String} {dims : Nat}
    {existing : List ColumnDescriptor} {rowCount : Nat} {backup : String} {s s1 : Sess}
    (h : migrate_rest env tbl dims existing rowCount backup s = .ok s1) :
    1 ≤ s1.trace.countP (fun st => st == Stmt.commitTxn) := by
  unfold migrate_rest at h
  cases h1 : tryExec env s (Stmt.dropTable tbl) with
  | error p => rw [h1] at h; cases h
  | ok sA =>
    rw [h1] at h
    dsimp only at h
    cases h2 : tryExec env sA (Stmt.createTable tbl "embedding" dims) with
    | error p => rw [h2] at h; cases h
    | ok sB =>
      rw [h2] at h
      dsimp only at h
      cases h3 : tryExec env sB (Stmt.createGinIndex tbl) with
      | error p => rw [h3] at h; cases h
      | ok sC =>
        rw [h3] at h
        dsimp only at h
        cases h4 : migrateVectorIndex env tbl sC with
        | error p => rw [h4] at h; cases h
        | ok sD =>
          rw [h4] at h
          dsimp only at h
          cases h
          dsimp only [doCommit]
          rw [List.countP_append]
          simp

/-- C8: during migration data re-population on a non-empty table, the vector
column is never copied (every row of the recreated table has a NULL
embedding); text and metadata are copied together when both existed in the
backup's schema, text alone when only text existed, and the copy is skipped
entirely when text was absent; and a failure of the re-population statement
alone is non-fatal — when every non-repopulation statement succeeds the
migration still reaches its `COMMIT;`. -/
theorem migration_repopulation_policy (env : Env) (tbl : String) (dims : Nat)
    (existing : List ColumnDescriptor) (s : Sess)
    (hrows : 0 < (tableRows s.db tbl).length) :
    (∀ s1, migrate_table_schema env tbl dims existing s = .ok s1 →
      ((colLookup existing "text").isSome = true → (colLookup existing "metadata").isSome = true →
          s1.trace.countP isInsertTM = s.trace.countP isInsertTM + 1
          ∧ s1.trace.countP isInsertTextOnly = s.trace.countP isInsertTextOnly)
      ∧ ((colLookup existing "text").isSome = true → (colLookup existing "metadata").isSome = false →
          s1.trace.countP isInsertTextOnly = s.trace.countP isInsertTextOnly + 1
          ∧ s1.trace.countP isInsertTM = s.trace.countP isInsertTM)
      ∧ ((colLookup existing "text").isSome = false →
          s1.trace.countP isRepopStep = s.trace.countP isRepopStep)
      ∧ (∀ r ∈ tableRows s1.db tbl, r.embedding = none))
    ∧ ((∀ st, isRepopStep st = false → env.fails st = none) →
      ∃ s1, migrate_table_schema env tbl dims existing s = .ok s1
        ∧ 1 ≤ s1.trace.countP (fun st => st == Stmt.commitTxn)) := by
  constructor
  · intro s1 h
    unfold migrate_table_schema at h
    cases hb : migrate_body env tbl dims existing s with
    | error p =>
      obtain ⟨e0, s2⟩ := p
      rw [hb] at h
      cases h
    | ok s2 =>
      rw [hb] at h
      cases h
      unfold migrate_body at hb
      try dsimp only at hb
      cases h1 : tryExec env (doBeginTxn s) (Stmt.selectCount tbl) with
      | error p => rw [h1] at hb; cases hb
      | ok sA =>
        rw [h1] at hb
        dsimp only at hb
        obtain ⟨_, hsA⟩ := tryExec_ok_inv h1
        have hdbA : sA.db = s.db := by rw [hsA]; rfl
        have hrcA : (tableRows sA.db tbl).length > 0 := by rw [hdbA]; exact hrows
        rw [if_pos hrcA] at hb
        cases h2 : tryExec env sA (Stmt.createTableAsSelect (backupName env tbl) tbl) with
        | error p => rw [h2] at hb; cases hb
        | ok sB =>
          rw [h2] at hb
          dsimp only at hb
          obtain ⟨_, hsB⟩ := tryExec_ok_inv h2
          have hcntB : ∀ p : Stmt → Bool, p Stmt.beginTxn = false →
              p (Stmt.selectCount tbl) = false →
              p (Stmt.createTableAsSelect (backupName env tbl) tbl) = false →
              sB.trace.countP p = s.trace.countP p := by
            intro p hq1 hq2 hq3
            rw [hsB]
            dsimp only
            rw [hsA]
            dsimp only [doBeginTxn]
            simp [List.countP_append, List.countP_cons, hq1, hq2, hq3]
          have hres := migrate_rest_repop (backupName_ne env tbl) hrcA hb
          refine ⟨fun a b => ?_, fun a b => ?_, fun a => ?_, hres.2.2.2⟩
          · obtain ⟨c1, c2⟩ := hres.1 a b
            exact ⟨by rw [c1, hcntB isInsertTM rfl rfl rfl],
                   by rw [c2, hcntB isInsertTextOnly rfl rfl rfl]⟩
          · obtain ⟨c1, c2⟩ := hres.2.1 a b
            exact ⟨by rw [c1, hcntB isInsertTextOnly rfl rfl rfl],
                   by rw [c2, hcntB isInsertTM rfl rfl rfl]⟩
          · have c1 := hres.2.2.1 a
            rw [c1, hcntB isRepopStep rfl rfl rfl]
  · intro hall
    cases hm : migrate_table_schema env tbl dims existing s with
    | error p =>
      obtain ⟨ce, s2⟩ := p
      obtain ⟨_, _, st, cause, hns, hf, _⟩ := migrate_table_schema_err hm
      rw [hall st hns] at hf
      cases hf
    | ok s1 =>
      refine ⟨s1, rfl, ?_⟩
      unfold migrate_table_schema at hm
      cases hb : migrate_body env tbl dims existing s with
      | error p =>
        obtain ⟨e0, s2⟩ := p
        rw [hb] at hm
        cases hm
      | ok s2 =>
        rw [hb] at hm
        cases hm
        unfold migrate_body at hb
        try dsimp only at hb
        cases h1 : tryExec env (doBeginTxn s) (Stmt.selectCount tbl) with
        | error p => rw [h1] at hb; cases hb
        | ok sA =>
          rw [h1] at hb
          dsimp only at hb
          by_cases hrcA : (tableRows sA.db tbl).length > 0
          · rw [if_pos hrcA] at hb
            cases h2 : tryExec env sA (Stmt.createTableAsSelect (backupName env tbl) tbl) with
            | error p => rw [h2] at hb; cases hb
            | ok sB =>
              rw [h2] at hb
              dsimp only at hb
              exact migrate_rest_ok_commit hb
          · rw [if_neg hrcA] at hb
            dsimp only at hb
            exact migrate_rest_ok_commit hb

/-- Witness for C8: a concrete migration (text column, no metadata column,
one row) with no failures reaches its commit. -/
theorem migration_repopulation_policy_witness :
    ∃ s1, migrate_table_schema envMig "t" 3 badTable.columns ⟨dbBad, dbBad, []⟩ = .ok s1
      ∧ 1 ≤ s1.trace.countP (fun st => st == Stmt.commitTxn) :=
  (migration_repopulation_policy envMig "t" 3 badTable.columns ⟨dbBad, dbBad, []⟩
    (by decide)).2 (fun _ _ => rfl)

end RdsSchema
